import Mathlib

/-!
# PqSQL: prepared-statement cache, classifier and executor

A shallow embedding of `src/PqSQL.cpp` and `src/PqSQL.h`.

Conventions of the embedding.

* A `std::string` is a Lean `String`; the functions work on its character
  list.  A character of code below 128 is the C `char` of that value.  Every
  other character stands for bytes of value 128 or more, on which `isspace`
  and `isdigit` are false and which no comparison with an ASCII letter,
  `$` or NUL matches.
* `int` values are `Int`.  The accumulation in `countParameters`, which the
  input text alone can drive past `INT_MAX`, wraps modulo `2^32`
  (`wrap32`).  The id counter `previousStatementId` and the size
  `params.size()` are not wrapped: the counter passes `INT_MAX` only after
  `2^31 - 1` allocations, where `++` is undefined in C++, and a parameter
  vector of `2^31` strings does not fit the cast to `int`; both are outside
  the model.
* The backend (libpq) is outside the program: each call that may reach it
  takes the backend's answer as an argument and lists the requests it sent.
-/

namespace PqSQL

/-! ## Machine arithmetic and `<cctype>` -/

/-- Two's-complement reading of an integer as a 32-bit `int`. -/
def wrap32 (x : Int) : Int := (x + 2147483648) % 4294967296 - 2147483648

/-- The test `std::isdigit` in the "C" locale. -/
def isdigit (c : Char) : Bool := decide (48 ≤ c.toNat) && decide (c.toNat ≤ 57)

/-- The test `std::isspace` in the "C" locale: space, `\t`, `\n`, `\v`, `\f`, `\r`. -/
def isspace (c : Char) : Bool :=
  decide (c.toNat = 32) || (decide (9 ≤ c.toNat) && decide (c.toNat ≤ 13))

/-- The view `s.c_str()` gives of a `std::string`: the characters before the
first NUL. -/
def c_str (s : List Char) : List Char := s.takeWhile (fun c => decide (c.toNat ≠ 0))

/-! ## `countParameters` (PqSQL.cpp, lines 6-28) -/

/-- The inner loop `while (isdigit(*ptr)) { num = num * 10 + (*ptr - '0'); ptr++; }`:
returns the final `num` and the final `ptr`. -/
def parseNum : List Char → Int → Int × List Char
  | [], num => (num, [])
  | c :: cs, num =>
    if isdigit c then parseNum cs (wrap32 (num * 10 + ((c.toNat : Int) - 48)))
    else (num, c :: cs)

/-- The test `std::isdigit(ptr[1])` where `rest` is the text from `ptr + 1`;
at the end of the text `ptr[1]` is the terminating NUL. -/
def nextIsDigit (rest : List Char) : Bool :=
  match rest with
  | [] => false
  | d :: _ => isdigit d

/-- The outer loop `while (*ptr)` of `countParameters`; `fuel` bounds the number
of iterations. -/
def countLoop : Nat → List Char → Int → Int
  | 0, _, maxParam => maxParam
  | _ + 1, [], maxParam => maxParam
  | fuel + 1, c :: rest, maxParam =>
    if c = '$' ∧ nextIsDigit rest = true then
      let r := parseNum rest 0
      countLoop fuel r.2 (if r.1 > maxParam then r.1 else maxParam)
    else countLoop fuel rest maxParam

/-- The function `int countParameters(const std::string& command)`. -/
def countParameters (command : String) : Int :=
  countLoop (command.toList.length + 1) (c_str command.toList) 0

/-! ## `getSQLCommandType` (PqSQL.cpp, lines 30-61) -/

def SQL_SELECT : Int := 0
def SQL_INSERT : Int := 1
def SQL_CREATE : Int := 2
def SQL_UPDATE : Int := 3
def SQL_ALTER : Int := 4
def SQL_DROP : Int := 5
def SQL_DELETE : Int := 6
def SQL_TRUNCATE : Int := 7

/-- The expression `ch & ~0x20`: the character promoted to `int` and masked
with `~0x20 = 0xFFFFFFDF`.  For a character below 128 the result fits the
`char` it is stored in. -/
def upperMask (c : Char) : Nat := c.toNat &&& 0xFFFFFFDF

/-- The body of `getSQLCommandType` after the whitespace loop: `rest` is the
text from index `i` on. -/
def classifyAt (rest : List Char) : Int :=
  match rest with
  | [] => -1
  | ch :: tail =>
    let c := upperMask ch
    if c = 83 then SQL_SELECT
    else if c = 73 then SQL_INSERT
    else if c = 85 then SQL_UPDATE
    else if c = 68 then
      match tail with
      | [] => -1
      | ch2 :: _ =>
        let c2 := upperMask ch2
        if c2 = 69 then SQL_DELETE
        else if c2 = 82 then SQL_DROP
        else -1
    else if c = 67 then SQL_CREATE
    else if c = 65 then SQL_ALTER
    else if c = 84 then SQL_TRUNCATE
    else if c = 87 then SQL_SELECT
    else -1

/-- The function `int getSQLCommandType(const std::string& sql)`: the loop
`while (i < sql.size() && isspace(sql[i])) i++` leaves the text from `i` on. -/
def getSQLCommandType (sql : String) : Int :=
  classifyAt (sql.toList.dropWhile isspace)

/-! ## libpq, as far as the program looks at it -/

/-- The result statuses of libpq (`ExecStatusType` in `libpq-fe.h`). -/
inductive ExecStatusType
  | PGRES_EMPTY_QUERY
  | PGRES_COMMAND_OK
  | PGRES_TUPLES_OK
  | PGRES_COPY_OUT
  | PGRES_COPY_IN
  | PGRES_BAD_RESPONSE
  | PGRES_NONFATAL_ERROR
  | PGRES_FATAL_ERROR
  | PGRES_COPY_BOTH
  | PGRES_SINGLE_TUPLE
  | PGRES_PIPELINE_SYNC
  | PGRES_PIPELINE_ABORTED
  deriving DecidableEq, Repr

/-- A libpq result object, what a non-null `PGresult*` points to: its status
(`PQresultStatus`), its sizes (`PQntuples`, `PQnfields`) and its cell texts. -/
structure PGresult where
  status : ExecStatusType
  ntuples : Int
  nfields : Int
  cells : List (List String)
  deriving DecidableEq, Repr

/-- The C string a `std::string` hands to libpq through `c_str()`. -/
def cstring (s : String) : String := String.mk (c_str s.toList)

/-- A request sent to the backend over `dbConn`, with the arguments the
program passes. -/
inductive Request
  | prepare (stmtName query : String) (nParams : Int)
  | execPrepared (stmtName : String) (nParams : Int) (paramValues : List String)
  deriving DecidableEq, Repr

/-- The backend's answer to a request: `none` is a null `PGresult*`. -/
abbrev Backend := Request → Option PGresult

/-! ## The data of `class DB` and `class DBResult` (PqSQL.h) -/

/-- The record `DB::Statement`. -/
structure Statement where
  name : String
  command : String
  nParams : Int
  type : Int
  prepared : Bool
  deriving DecidableEq, Repr

/-- The static state of `class DB` that the statement cache uses: `dbConn`
(`true` for a non-null pointer), the map `preparedStatements` in its iteration
order, and `previousStatementId`.  The connection parameters `dbName`,
`dbUser`, ... are only read by `init`. -/
structure DB where
  dbConn : Bool
  preparedStatements : List (Int × Statement)
  previousStatementId : Int
  deriving DecidableEq, Repr

/-- The holder `DBResult`: its `result` pointer, `none` when null. -/
structure DBResult where
  result : Option PGresult
  deriving DecidableEq, Repr

/-- The method `DBResult::isValid`. -/
def DBResult.isValid (r : DBResult) : Bool := r.result.isSome

/-- The method `DBResult::rowCount`. -/
def DBResult.rowCount (r : DBResult) : Int :=
  match r.result with
  | some res => res.ntuples
  | none => -1

/-- The method `DBResult::columnCount`. -/
def DBResult.columnCount (r : DBResult) : Int :=
  match r.result with
  | some res => res.nfields
  | none => -1

/-- The function `PQgetvalue` of libpq: the text of the cell, and a null
pointer (`none`) when the row or the column is outside the result. -/
def PQgetvalue (res : PGresult) (row column : Int) : Option String :=
  if 0 ≤ row ∧ row < res.ntuples ∧ 0 ≤ column ∧ column < res.nfields then
    some (((res.cells[row.toNat]?).bind (fun r => r[column.toNat]?)).getD "")
  else none

/-- What a call of `getValue` leaves: the returned string, `none` when the
`std::string` is built from a null pointer, which is undefined, and the cells
asked of libpq with `PQgetvalue`, in order. -/
structure GetValueOutcome where
  value : Option String
  asked : List (Int × Int)
  deriving DecidableEq, Repr

/-- The method `DBResult::getValue`: the test
`!isValid() || row >= rowCount() || column >= columnCount()` and the call of
`PQgetvalue`. -/
def DBResult.getValue (r : DBResult) (row column : Int) : GetValueOutcome :=
  match r.result with
  | none => { value := some "", asked := [] }
  | some res =>
    if row ≥ r.rowCount ∨ column ≥ r.columnCount then { value := some "", asked := [] }
    else { value := PQgetvalue res row column, asked := [(row, column)] }

/-! ## The map `std::unordered_map<int, Statement>` -/

/-- The lookup `preparedStatements.find(ID)`; `none` stands for `end()`. -/
def mapFind : List (Int × Statement) → Int → Option Statement
  | [], _ => none
  | (k, v) :: m, id => if k = id then some v else mapFind m id

/-- The store `preparedStatements[id] = st`: overwrites the entry of key `id`
when there is one, adds an entry otherwise.  Where a new entry comes in the
iteration order is left open by `std::unordered_map`; here it comes last. -/
def mapAssign : List (Int × Statement) → Int → Statement → List (Int × Statement)
  | [], id, st => [(id, st)]
  | (k, v) :: m, id, st => if k = id then (id, st) :: m else (k, v) :: mapAssign m id st

/-- The loop `for (const auto& [id, stmt] : preparedStatements)` of
`prepareStatement`: the id of the first entry whose command is the text. -/
def scanCommand : List (Int × Statement) → String → Option Int
  | [], _ => none
  | (id, stmt) :: m, command =>
    if stmt.command = command then some id else scanCommand m command

/-! ## `DB::init`, `DB::cleanup`, `DB::statementExists`, `DB::statementCount` -/

/-- The state of the program at start: null connection, empty map, counter 0. -/
def DB.initial : DB := { dbConn := false, preparedStatements := [], previousStatementId := 0 }

/-- The method `DB::init`.  `conn` is what `PQconnectdb` returns: `none` for a
null pointer, `some ok` for a connection object, `ok` telling whether its
status is `CONNECTION_OK`.  The pointer is stored in `dbConn` in both cases. -/
def DB.init (conn : Option Bool) (db : DB) : Int × DB :=
  let db1 := { db with dbConn := conn.isSome }
  if conn ≠ some true then (1, db1) else (0, db1)

/-- The method `DB::cleanup`. -/
def DB.cleanup (db : DB) : DB :=
  { db with dbConn := false, preparedStatements := [], previousStatementId := 0 }

/-- The method `DB::statementExists`. -/
def DB.statementExists (db : DB) (ID : Int) : Bool :=
  (mapFind db.preparedStatements ID).isSome

/-- The method `DB::statementCount`. -/
def DB.statementCount (db : DB) : Int := (db.preparedStatements.length : Int)

/-! ## `DB::prepareStatement` (PqSQL.cpp, lines 97-152) -/

/-- The expression `"stmt_" + stmtID` assigned to a `std::string`: the literal
is a `const char[6]`, the sum is the pointer `stmtID` characters into it, and
the string is what is read from there up to the next NUL.  For offsets 0 to 5
that is a suffix of the literal; `stray n` is the C string found at any other
offset `n`, outside the literal. -/
def stmtName (stray : Int → String) (stmtID : Int) : String :=
  if 0 ≤ stmtID ∧ stmtID ≤ 5 then String.mk ("stmt_".toList.drop stmtID.toNat)
  else stray stmtID

/-- What a call of `prepareStatement` leaves: the returned value, the state
after the call and the requests sent to the backend, in order. -/
structure PrepareOutcome where
  ret : Int
  db : DB
  requests : List Request
  deriving DecidableEq, Repr

/-- The method `DB::prepareStatement`. -/
def DB.prepareStatement (stray : Int → String) (backend : Backend) (db : DB)
    (command : String) : PrepareOutcome :=
  if db.dbConn = false then { ret := -1, db := db, requests := [] }
  else if command.length = 0 then { ret := -1, db := db, requests := [] }
  else
    match scanCommand db.preparedStatements command with
    | some id => { ret := id, db := db, requests := [] }
    | none =>
      let db1 := { db with previousStatementId := db.previousStatementId + 1 }
      let stmtID := db1.previousStatementId
      let newStmt : Statement :=
        { name := stmtName stray stmtID
          command := command
          nParams := countParameters command
          type := getSQLCommandType command
          prepared := false }
      if newStmt.type = -1 then { ret := -1, db := db1, requests := [] }
      else
        let req := Request.prepare (cstring newStmt.name) (cstring newStmt.command)
          newStmt.nParams
        let rollback : PrepareOutcome :=
          { ret := -1
            db := { db1 with previousStatementId := db1.previousStatementId - 1 }
            requests := [req] }
        match backend req with
        | none => rollback
        | some res =>
          if res.status ≠ ExecStatusType.PGRES_COMMAND_OK then rollback
          else
            { ret := stmtID
              db := { db1 with
                preparedStatements :=
                  mapAssign db1.preparedStatements stmtID { newStmt with prepared := true } }
              requests := [req] }

/-! ## `DB::checkResult` and `DB::exec` (PqSQL.cpp, lines 162-259) -/

/-- The method `DB::checkResult`. -/
def DB.checkResult (res : Option PGresult) (type : Int) : Bool :=
  match res with
  | none => false
  | some r =>
    let status := r.status
    if type = SQL_SELECT then decide (status = ExecStatusType.PGRES_TUPLES_OK)
    else if type = SQL_INSERT ∨ type = SQL_UPDATE ∨ type = SQL_DELETE ∨ type = SQL_TRUNCATE then
      decide (status = ExecStatusType.PGRES_COMMAND_OK)
        || decide (status = ExecStatusType.PGRES_TUPLES_OK)
    else if type = SQL_CREATE ∨ type = SQL_ALTER ∨ type = SQL_DROP then
      decide (status = ExecStatusType.PGRES_COMMAND_OK)
    else false

/-- What a call of `exec` leaves: the returned code, the holder after the call
and the requests sent to the backend.  The state of `DB` is not written. -/
structure ExecOutcome where
  ret : Int
  result : DBResult
  requests : List Request
  deriving DecidableEq, Repr

/-- The method `DB::exec`.  Before the request the holder's previous result is
released and the holder set to null; the backend's answer is then stored in
it, and taken out again when `checkResult` rejects it. -/
def DB.exec (backend : Backend) (db : DB) (ID : Int) (params : List String)
    (result : DBResult) : ExecOutcome :=
  if db.dbConn = false then { ret := 1, result := result, requests := [] }
  else
    match mapFind db.preparedStatements ID with
    | none => { ret := 2, result := result, requests := [] }
    | some stmt =>
      if stmt.prepared = false then { ret := 3, result := result, requests := [] }
      else if (params.length : Int) ≠ stmt.nParams then
        { ret := 4, result := result, requests := [] }
      else
        let req := Request.execPrepared (cstring stmt.name) stmt.nParams (params.map cstring)
        let result1 : DBResult := { result := backend req }
        if DB.checkResult result1.result stmt.type = false then
          { ret := 5, result := { result := none }, requests := [req] }
        else { ret := 0, result := result1, requests := [req] }

/-! ## Runs of the program -/

/-- The states a run of the program can be in, with the ids that calls of
`prepareStatement` have returned so far (every returned value other than -1).
A run starts in `DB.initial` and calls `init`, `prepareStatement` and `cleanup`
in any order, the backend answering as it likes; `exec` does not write the
state. -/
inductive Run (stray : Int → String) : DB → List Int → Prop
  | start : Run stray DB.initial []
  | init (conn : Option Bool) {db : DB} {ids : List Int} :
      Run stray db ids → Run stray (DB.init conn db).2 ids
  | prepare (backend : Backend) (command : String) {db : DB} {ids : List Int} :
      Run stray db ids →
      Run stray (DB.prepareStatement stray backend db command).db
        (if (DB.prepareStatement stray backend db command).ret = -1 then ids
         else (DB.prepareStatement stray backend db command).ret :: ids)
  | cleanup {db : DB} {ids : List Int} : Run stray db ids → Run stray (DB.cleanup db) ids

/-- A backend that accepts every request: command-completed for a prepare
request, one row for an execution. -/
def acceptAll : Backend := fun req =>
  match req with
  | Request.prepare _ _ _ =>
    some { status := ExecStatusType.PGRES_COMMAND_OK, ntuples := 0, nfields := 0, cells := [] }
  | Request.execPrepared _ _ _ =>
    some { status := ExecStatusType.PGRES_TUPLES_OK, ntuples := 1, nfields := 1,
           cells := [["42"]] }

/-- A state with a connection, an empty cache and the counter at 0: the state
after a successful `init`. -/
def DB.connected : DB := { dbConn := true, preparedStatements := [], previousStatementId := 0 }

/-- The cache is well formed: the counter is not negative, every cached id is
at least 1, every cached statement is marked prepared, and no id occurs
twice. -/
def CacheOk (db : DB) : Prop :=
  0 ≤ db.previousStatementId ∧
  (∀ e ∈ db.preparedStatements, 1 ≤ e.1 ∧ e.2.prepared = true) ∧
  (db.preparedStatements.map Prod.fst).Nodup

/-- Every cached statement is as `prepareStatement` stores it: marked prepared,
of the kind of its command, which is a recognised kind, and with the parameter
count of its command. -/
def StoredOk (db : DB) : Prop :=
  ∀ e ∈ db.preparedStatements,
    e.2.prepared = true ∧ e.2.type = getSQLCommandType e.2.command ∧ e.2.type ≠ -1 ∧
      e.2.nParams = countParameters e.2.command

/-- No two entries of the cache have the same command text. -/
def TextsDistinct (db : DB) : Prop :=
  (db.preparedStatements.map (fun e => e.2.command)).Nodup

/-- Every cached id lies between 1 and `previousStatementId`. -/
def IdsBelowCounter (db : DB) : Prop :=
  ∀ e ∈ db.preparedStatements, 1 ≤ e.1 ∧ e.1 ≤ db.previousStatementId

/-! ## Changing the letter case of a text -/

/-- The other case of a letter `A`-`Z` or `a`-`z`; any other character is kept. -/
def swapCase (c : Char) : Char :=
  if 65 ≤ c.toNat ∧ c.toNat ≤ 90 then Char.ofNat (c.toNat + 32)
  else if 97 ≤ c.toNat ∧ c.toNat ≤ 122 then Char.ofNat (c.toNat - 32)
  else c

/-- The text with the letter case changed at the places the flags mark. -/
def changeCase : List Bool → List Char → List Char
  | _, [] => []
  | [], cs => cs
  | b :: bs, c :: cs => (if b then swapCase c else c) :: changeCase bs cs

/-- A rows-returned result with one row and one column, holding `42`. -/
def oneRow : PGresult :=
  { status := ExecStatusType.PGRES_TUPLES_OK, ntuples := 1, nfields := 1, cells := [["42"]] }

/-- A backend that rejects every request with a fatal error. -/
def rejectAll : Backend := fun _ =>
  some { status := ExecStatusType.PGRES_FATAL_ERROR, ntuples := 0, nfields := 0, cells := [] }

/-! ## The backend name as the specification words it -/

/-- The backend name the specification gives the statement of id `n`: the
string `stmt_` followed by the decimal representation of `n`. -/
def specStmtName (n : Int) : String := "stmt_" ++ toString n

/-! ## The classifier as the specification words it -/

/-- The kind the specification gives a text: skip leading whitespace, fail if
nothing remains, otherwise decide on the first character in either case, and
for `D` on the character after it. -/
def specClassify (sql : String) : Int :=
  match sql.toList.dropWhile isspace with
  | [] => -1
  | c :: rest =>
    if c = 'S' ∨ c = 's' ∨ c = 'W' ∨ c = 'w' then SQL_SELECT
    else if c = 'I' ∨ c = 'i' then SQL_INSERT
    else if c = 'U' ∨ c = 'u' then SQL_UPDATE
    else if c = 'C' ∨ c = 'c' then SQL_CREATE
    else if c = 'A' ∨ c = 'a' then SQL_ALTER
    else if c = 'T' ∨ c = 't' then SQL_TRUNCATE
    else if c = 'D' ∨ c = 'd' then
      match rest with
      | [] => -1
      | e :: _ =>
        if e = 'E' ∨ e = 'e' then SQL_DELETE
        else if e = 'R' ∨ e = 'r' then SQL_DROP
        else -1
    else -1

/-! ## The parameter counter as the specification words it -/

/-- Integer value of a run of decimal digits. -/
def specDigitsValue (ds : List Char) : Nat :=
  ds.foldl (fun n c => n * 10 + (c.toNat - 48)) 0

/-- The values found at all places of the text where a `$` is immediately
followed by one or more decimal digits: at each such place, the value of the
full digit run. -/
def specPlaceholderValues : List Char → List Nat
  | [] => []
  | c :: rest =>
    if c = '$' ∧ nextIsDigit rest = true then
      specDigitsValue (rest.takeWhile isdigit) :: specPlaceholderValues rest
    else specPlaceholderValues rest

/-- The maximum of the placeholder values of the text, 0 when there is none. -/
def specCountParameters (command : String) : Nat :=
  (specPlaceholderValues command.toList).foldr max 0

/-! ## Lemmas on `countParameters` -/

theorem wrap32_of_lt (x : Int) (h0 : 0 ≤ x) (h1 : x < 2147483648) : wrap32 x = x := by
  unfold wrap32; omega

theorem isdigit_iff (c : Char) : isdigit c = true ↔ 48 ≤ c.toNat ∧ c.toNat ≤ 57 := by
  simp [isdigit]

theorem isdigit_ne_dollar (c : Char) (h : isdigit c = true) : c ≠ '$' := by
  rintro rfl
  revert h; decide

/-- Accumulating digits onto `n` never goes below `n`. -/
theorem le_foldl_digits (ds : List Char) (n : Nat) :
    n ≤ ds.foldl (fun n c => n * 10 + (c.toNat - 48)) n := by
  induction ds generalizing n with
  | nil => simp
  | cons d ds ih =>
    simp only [List.foldl_cons]
    exact le_trans (by omega) (ih _)

/-- Without overflow the inner loop computes the value of the digit run and
stops right after it. -/
theorem parseNum_eq (cs : List Char) (n : Nat)
    (h : (cs.takeWhile isdigit).foldl (fun n c => n * 10 + (c.toNat - 48)) n < 2147483648) :
    parseNum cs (n : Int) =
      ((((cs.takeWhile isdigit).foldl (fun n c => n * 10 + (c.toNat - 48)) n : Nat) : Int),
        cs.dropWhile isdigit) := by
  induction cs generalizing n with
  | nil => simp [parseNum]
  | cons c cs ih =>
    by_cases hd : isdigit c = true
    · simp only [List.takeWhile_cons, hd, if_true, List.foldl_cons, List.dropWhile_cons] at h ⊢
      have hb := le_foldl_digits (cs.takeWhile isdigit) (n * 10 + (c.toNat - 48))
      have hc := (isdigit_iff c).1 hd
      have hw : wrap32 ((n : Int) * 10 + ((c.toNat : Int) - 48))
          = ((n * 10 + (c.toNat - 48) : Nat) : Int) := by
        rw [wrap32_of_lt] <;> omega
      rw [parseNum, if_pos hd, hw]
      exact ih _ h
    · simp [parseNum, hd]

theorem specPlaceholderValues_dropWhile (cs : List Char) :
    specPlaceholderValues (cs.dropWhile isdigit) = specPlaceholderValues cs := by
  induction cs with
  | nil => rfl
  | cons c cs ih =>
    by_cases hd : isdigit c = true
    · have hne := isdigit_ne_dollar c hd
      simp [List.dropWhile_cons, hd, specPlaceholderValues, hne, ih]
    · simp [List.dropWhile_cons, hd]

theorem length_dropWhile_le (p : Char → Bool) (cs : List Char) :
    (cs.dropWhile p).length ≤ cs.length := by
  induction cs with
  | nil => simp
  | cons c cs ih =>
    simp only [List.dropWhile_cons]
    split
    · simp only [List.length_cons]; omega
    · exact le_refl _

/-- With enough fuel and no overflow the outer loop folds `max` over the
placeholder values. -/
theorem countLoop_eq (fuel : Nat) (ptr : List Char) (m : Nat)
    (hfuel : ptr.length ≤ fuel)
    (hfit : ∀ v ∈ specPlaceholderValues ptr, v < 2147483648) :
    countLoop fuel ptr (m : Int) =
      (((specPlaceholderValues ptr).foldl max m : Nat) : Int) := by
  induction fuel generalizing ptr m with
  | zero =>
    have : ptr = [] := List.length_eq_zero.1 (by omega)
    subst this
    simp [countLoop, specPlaceholderValues]
  | succ fuel ih =>
    cases ptr with
    | nil => simp [countLoop, specPlaceholderValues]
    | cons c rest =>
      simp only [List.length_cons] at hfuel
      by_cases hc : c = '$' ∧ nextIsDigit rest = true
      · have hv : specPlaceholderValues (c :: rest)
            = specDigitsValue (rest.takeWhile isdigit) :: specPlaceholderValues rest := by
          simp [specPlaceholderValues, hc]
        rw [hv] at hfit ⊢
        have hlt : specDigitsValue (rest.takeWhile isdigit) < 2147483648 :=
          hfit _ (List.mem_cons_self _ _)
        have hp := parseNum_eq rest 0 hlt
        simp only [Nat.cast_zero] at hp
        rw [countLoop, if_pos hc]
        simp only [hp, List.foldl_cons]
        have hmax : (if ((specDigitsValue (rest.takeWhile isdigit) : Nat) : Int) > (m : Int)
            then ((specDigitsValue (rest.takeWhile isdigit) : Nat) : Int) else (m : Int))
            = ((max m (specDigitsValue (rest.takeWhile isdigit)) : Nat) : Int) := by
          unfold specDigitsValue
          split <;> omega
        unfold specDigitsValue at hmax ⊢
        rw [hmax]
        have := ih (rest.dropWhile isdigit) (max m (specDigitsValue (rest.takeWhile isdigit)))
          (le_trans (length_dropWhile_le _ _) (by omega))
          (by
            rw [specPlaceholderValues_dropWhile]
            intro v hv
            exact hfit v (List.mem_cons_of_mem _ hv))
        rw [specPlaceholderValues_dropWhile] at this
        exact this
      · have hv : specPlaceholderValues (c :: rest) = specPlaceholderValues rest := by
          simp only [specPlaceholderValues, if_neg hc]
        rw [hv] at hfit ⊢
        rw [countLoop, if_neg hc]
        exact ih rest m (by omega) hfit

theorem foldl_max_eq (vs : List Nat) (m : Nat) :
    vs.foldl max m = max m (vs.foldr max 0) := by
  induction vs generalizing m with
  | nil => simp
  | cons v vs ih =>
    simp only [List.foldl_cons, List.foldr_cons, ih]
    omega

theorem c_str_of_no_nul (s : List Char) (h : ∀ c ∈ s, c.toNat ≠ 0) : c_str s = s := by
  unfold c_str
  rw [List.takeWhile_eq_self_iff]
  intro c hc
  simpa using h c hc

theorem parseNum_length (cs : List Char) (num : Int) :
    (parseNum cs num).2.length ≤ cs.length := by
  induction cs generalizing num with
  | nil => simp [parseNum]
  | cons c cs ih =>
    simp only [parseNum]
    split
    · exact le_trans (ih _) (by simp)
    · exact le_refl _

/-- The outer loop never runs out of fuel: any two amounts of fuel that are at
least the length of the text give the same result. -/
theorem countLoop_fuel (f1 f2 : Nat) (ptr : List Char) (m : Int)
    (h1 : ptr.length ≤ f1) (h2 : ptr.length ≤ f2) :
    countLoop f1 ptr m = countLoop f2 ptr m := by
  induction f1 generalizing f2 ptr m with
  | zero =>
    have : ptr = [] := List.length_eq_zero.1 (by omega)
    subst this
    cases f2 <;> simp [countLoop]
  | succ f1 ih =>
    cases ptr with
    | nil => cases f2 <;> simp [countLoop]
    | cons c rest =>
      simp only [List.length_cons] at h1 h2
      cases f2 with
      | zero => omega
      | succ f2 =>
        simp only [countLoop]
        split
        · have hl := parseNum_length rest 0
          exact ih f2 _ _ (by omega) (by omega)
        · exact ih f2 _ _ (by omega) (by omega)

/-! ## Lemmas on `getSQLCommandType` -/

theorem and_div_128 (a b : Nat) : (a &&& b) / 128 = a / 128 &&& b / 128 := by
  have h : ∀ x : Nat, x / 128 = x / 2 / 2 / 2 / 2 / 2 / 2 / 2 := by
    intro x; omega
  rw [h (a &&& b), h a, h b]
  simp only [Nat.and_div_two]

theorem lt_128_of_mask (n : Nat) (hn : n < 4294967296)
    (h : n &&& 0xFFFFFFDF < 128) : n < 128 := by
  have h1 : (n &&& 0xFFFFFFDF) / 128 = 0 := by omega
  rw [and_div_128] at h1
  have h2 : (0xFFFFFFDF : Nat) / 128 = 2 ^ 25 - 1 := by norm_num
  rw [h2, Nat.and_pow_two_sub_one_eq_mod] at h1
  omega

theorem mask_small : ∀ n < 128, ∀ k ∈ [65, 67, 68, 69, 73, 82, 83, 84, 85, 87],
    (n &&& 0xFFFFFFDF = k ↔ n = k ∨ n = k + 32) := by decide

theorem char_eq_of_toNat (c d : Char) (h : c.toNat = d.toNat) : c = d := by
  apply Char.ext
  apply UInt32.ext
  exact h

theorem char_toNat_lt (c : Char) : c.toNat < 4294967296 := c.val.val.isLt

/-- Masking with `~0x20` gives an upper-case letter exactly on that letter in
either case. -/
theorem upperMask_eq_iff (c : Char) (k : Nat)
    (hk : k ∈ [65, 67, 68, 69, 73, 82, 83, 84, 85, 87]) :
    upperMask c = k ↔ c.toNat = k ∨ c.toNat = k + 32 := by
  unfold upperMask
  constructor
  · intro h
    have hk128 : k < 128 := by
      simp only [List.mem_cons, List.mem_singleton, List.not_mem_nil, or_false] at hk
      omega
    have hlt : c.toNat < 128 := lt_128_of_mask _ (char_toNat_lt c) (by omega)
    exact (mask_small _ hlt k hk).1 h
  · intro h
    have hlt : c.toNat < 128 := by
      simp only [List.mem_cons, List.mem_singleton, List.not_mem_nil, or_false] at hk
      omega
    exact (mask_small _ hlt k hk).2 h

theorem upperMask_letter (c : Char) (u l : Char)
    (hu : u.toNat ∈ [65, 67, 68, 69, 73, 82, 83, 84, 85, 87])
    (hl : l.toNat = u.toNat + 32) :
    upperMask c = u.toNat ↔ c = u ∨ c = l := by
  rw [upperMask_eq_iff c _ hu]
  constructor
  · rintro (h | h)
    · exact Or.inl (char_eq_of_toNat _ _ h)
    · exact Or.inr (char_eq_of_toNat _ _ (h.trans hl.symm))
  · rintro (rfl | rfl)
    · exact Or.inl rfl
    · exact Or.inr hl

theorem classifyAt_eq_spec (cs : List Char) :
    classifyAt cs =
      (match cs with
      | [] => -1
      | c :: rest =>
        if c = 'S' ∨ c = 's' ∨ c = 'W' ∨ c = 'w' then SQL_SELECT
        else if c = 'I' ∨ c = 'i' then SQL_INSERT
        else if c = 'U' ∨ c = 'u' then SQL_UPDATE
        else if c = 'C' ∨ c = 'c' then SQL_CREATE
        else if c = 'A' ∨ c = 'a' then SQL_ALTER
        else if c = 'T' ∨ c = 't' then SQL_TRUNCATE
        else if c = 'D' ∨ c = 'd' then
          match rest with
          | [] => -1
          | e :: _ =>
            if e = 'E' ∨ e = 'e' then SQL_DELETE
            else if e = 'R' ∨ e = 'r' then SQL_DROP
            else -1
        else -1) := by
  cases cs with
  | nil => rfl
  | cons c rest =>
    have hS := upperMask_letter c 'S' 's' (by decide) (by decide)
    have hI := upperMask_letter c 'I' 'i' (by decide) (by decide)
    have hU := upperMask_letter c 'U' 'u' (by decide) (by decide)
    have hD := upperMask_letter c 'D' 'd' (by decide) (by decide)
    have hC := upperMask_letter c 'C' 'c' (by decide) (by decide)
    have hA := upperMask_letter c 'A' 'a' (by decide) (by decide)
    have hT := upperMask_letter c 'T' 't' (by decide) (by decide)
    have hW := upperMask_letter c 'W' 'w' (by decide) (by decide)
    have e83 : ('S' : Char).toNat = 83 := rfl
    have e73 : ('I' : Char).toNat = 73 := rfl
    have e85 : ('U' : Char).toNat = 85 := rfl
    have e68 : ('D' : Char).toNat = 68 := rfl
    have e67 : ('C' : Char).toNat = 67 := rfl
    have e65 : ('A' : Char).toNat = 65 := rfl
    have e84 : ('T' : Char).toNat = 84 := rfl
    have e87 : ('W' : Char).toNat = 87 := rfl
    rw [e83] at hS; rw [e73] at hI; rw [e85] at hU; rw [e68] at hD
    rw [e67] at hC; rw [e65] at hA; rw [e84] at hT; rw [e87] at hW
    by_cases h1 : c = 'S' ∨ c = 's'
    · rcases h1 with rfl | rfl <;> rfl
    by_cases h2 : c = 'I' ∨ c = 'i'
    · rcases h2 with rfl | rfl <;> rfl
    by_cases h3 : c = 'U' ∨ c = 'u'
    · rcases h3 with rfl | rfl <;> rfl
    by_cases h5 : c = 'C' ∨ c = 'c'
    · rcases h5 with rfl | rfl <;> rfl
    by_cases h6 : c = 'A' ∨ c = 'a'
    · rcases h6 with rfl | rfl <;> rfl
    by_cases h7 : c = 'T' ∨ c = 't'
    · rcases h7 with rfl | rfl <;> rfl
    by_cases h8 : c = 'W' ∨ c = 'w'
    · rcases h8 with rfl | rfl <;> rfl
    have g1 : ¬ (c = 'S' ∨ c = 's' ∨ c = 'W' ∨ c = 'w') := by
      rintro (h | h | h | h)
      · exact h1 (Or.inl h)
      · exact h1 (Or.inr h)
      · exact h8 (Or.inl h)
      · exact h8 (Or.inr h)
    simp only [classifyAt, hS, hI, hU, hD, hC, hA, hT, hW, h1, h2, h3, h5, h6, h7, h8, g1,
      or_false, if_false]
    by_cases h4 : c = 'D' ∨ c = 'd'
    · simp only [h4, if_true]
      cases rest with
      | nil => rfl
      | cons e tl =>
        have hE := upperMask_letter e 'E' 'e' (by decide) (by decide)
        have hR := upperMask_letter e 'R' 'r' (by decide) (by decide)
        have e69 : ('E' : Char).toNat = 69 := rfl
        have e82 : ('R' : Char).toNat = 82 := rfl
        rw [e69] at hE; rw [e82] at hR
        simp only [hE, hR]
    · simp only [h4, if_false]

theorem getSQLCommandType_eq_spec (sql : String) :
    getSQLCommandType sql = specClassify sql := by
  unfold getSQLCommandType specClassify
  exact classifyAt_eq_spec _


/-! ## Lemmas on the map -/

theorem scanCommand_mapAssign (m : List (Int × Statement)) (id : Int) (st : Statement)
    (T : String) (hscan : scanCommand m T = none) (hst : st.command = T) :
    scanCommand (mapAssign m id st) T = some id := by
  induction m with
  | nil => simp [mapAssign, scanCommand, hst]
  | cons e m ih =>
    obtain ⟨k, v⟩ := e
    simp only [scanCommand] at hscan
    split at hscan
    · exact absurd hscan (by simp)
    · rename_i hv
      simp only [mapAssign]
      split
      · simp [scanCommand, hst]
      · simp only [scanCommand, if_neg hv]
        exact ih hscan

theorem mapFind_mapAssign_self (m : List (Int × Statement)) (id : Int) (st : Statement) :
    mapFind (mapAssign m id st) id = some st := by
  induction m with
  | nil => simp [mapAssign, mapFind]
  | cons e m ih =>
    obtain ⟨k, v⟩ := e
    simp only [mapAssign]
    split
    · simp [mapFind]
    · rename_i hk
      simp only [mapFind, if_neg hk]
      exact ih

theorem scanCommand_some (m : List (Int × Statement)) (T : String) (id : Int)
    (h : scanCommand m T = some id) : ∃ st, (id, st) ∈ m ∧ st.command = T := by
  induction m with
  | nil => simp [scanCommand] at h
  | cons e m ih =>
    obtain ⟨k, v⟩ := e
    simp only [scanCommand] at h
    split at h
    · rename_i hv
      have hk : k = id := by simpa using h
      subst hk
      exact ⟨v, List.mem_cons_self _ _, hv⟩
    · obtain ⟨st, hmem, hst⟩ := ih h
      exact ⟨st, List.mem_cons_of_mem _ hmem, hst⟩

theorem mapFind_of_mem (m : List (Int × Statement)) (id : Int) (st : Statement)
    (hnd : (m.map Prod.fst).Nodup) (hmem : (id, st) ∈ m) : mapFind m id = some st := by
  induction m with
  | nil => simp at hmem
  | cons e m ih =>
    obtain ⟨k, v⟩ := e
    simp only [List.map_cons, List.nodup_cons] at hnd
    rcases List.mem_cons.1 hmem with heq | hin
    · have h1 : id = k := (Prod.mk.inj heq).1
      have h2 : st = v := (Prod.mk.inj heq).2
      subst h1; subst h2
      simp [mapFind]
    · have hne : k ≠ id := by
        rintro rfl
        exact hnd.1 (List.mem_map.2 ⟨(k, st), hin, rfl⟩)
      simp only [mapFind, if_neg hne]
      exact ih hnd.2 hin

theorem mem_mapAssign (m : List (Int × Statement)) (id : Int) (st : Statement)
    (e : Int × Statement) (h : e ∈ mapAssign m id st) : e = (id, st) ∨ e ∈ m := by
  induction m with
  | nil => simpa [mapAssign] using h
  | cons x m ih =>
    obtain ⟨k, v⟩ := x
    simp only [mapAssign] at h
    split at h
    · rcases List.mem_cons.1 h with h | h
      · exact Or.inl h
      · exact Or.inr (List.mem_cons_of_mem _ h)
    · rcases List.mem_cons.1 h with h | h
      · exact Or.inr (h ▸ List.mem_cons_self _ _)
      · rcases ih h with h | h
        · exact Or.inl h
        · exact Or.inr (List.mem_cons_of_mem _ h)

theorem keys_mapAssign (m : List (Int × Statement)) (id : Int) (st : Statement) (k : Int)
    (h : k ∈ (mapAssign m id st).map Prod.fst) : k = id ∨ k ∈ m.map Prod.fst := by
  obtain ⟨e, he, rfl⟩ := List.mem_map.1 h
  rcases mem_mapAssign m id st e he with h | h
  · exact Or.inl (by rw [h])
  · exact Or.inr (List.mem_map.2 ⟨e, h, rfl⟩)

theorem nodup_mapAssign (m : List (Int × Statement)) (id : Int) (st : Statement)
    (hnd : (m.map Prod.fst).Nodup) : ((mapAssign m id st).map Prod.fst).Nodup := by
  induction m with
  | nil => simp [mapAssign]
  | cons x m ih =>
    obtain ⟨k, v⟩ := x
    simp only [List.map_cons, List.nodup_cons] at hnd
    simp only [mapAssign]
    split
    · rename_i hk
      subst hk
      simpa [List.nodup_cons] using hnd
    · rename_i hk
      simp only [List.map_cons, List.nodup_cons]
      refine ⟨?_, ih hnd.2⟩
      intro hin
      rcases keys_mapAssign m id st k hin with h | h
      · exact hk h
      · exact hnd.1 h

/-! ## Lemmas on `prepareStatement` -/

/-- A call that finds the text in the cache returns the cached id and does
nothing else. -/
theorem prepareStatement_of_scan (stray : Int → String) (backend : Backend) (db : DB)
    (T : String) (id : Int) (hconn : db.dbConn = true) (hT : T.length ≠ 0)
    (hscan : scanCommand db.preparedStatements T = some id) :
    DB.prepareStatement stray backend db T = { ret := id, db := db, requests := [] } := by
  simp [DB.prepareStatement, hconn, hT, hscan]

/-- After a call that returned an id, the connection is there, the text is not
empty and the scan of the cache for the text finds the returned id. -/
theorem prepareStatement_scan_after (stray : Int → String) (backend : Backend) (db : DB)
    (T : String) (h : (DB.prepareStatement stray backend db T).ret ≠ -1) :
    (DB.prepareStatement stray backend db T).db.dbConn = true ∧ T.length ≠ 0 ∧
      scanCommand (DB.prepareStatement stray backend db T).db.preparedStatements T
        = some (DB.prepareStatement stray backend db T).ret := by
  unfold DB.prepareStatement at h ⊢
  by_cases hconn : db.dbConn = false
  · simp [hconn] at h
  by_cases hT : T.length = 0
  · simp [hconn, hT] at h
  simp only [if_neg hconn, if_neg hT] at h ⊢
  have hconn1 : db.dbConn = true := by simpa using hconn
  cases hscan : scanCommand db.preparedStatements T with
  | some id => simp [hscan, hconn1, hT]
  | none =>
    simp only [hscan] at h ⊢
    by_cases hty : getSQLCommandType T = -1
    · simp [hty] at h
    simp only [if_neg hty] at h ⊢
    split
    · rename_i hb
      simp [hb] at h
    · rename_i res hb
      simp only [hb] at h
      by_cases hst : res.status ≠ ExecStatusType.PGRES_COMMAND_OK
      · simp [hst] at h
      · simp only [if_neg hst]
        exact ⟨hconn1, hT, scanCommand_mapAssign _ _ _ _ hscan rfl⟩

/-- The state after a call of `prepareStatement`: either the cache is as
before and the counter went up by at most one, or a statement built from the
text was stored, marked prepared, under the next id, which is returned. -/
theorem prepareStatement_db (stray : Int → String) (backend : Backend) (db : DB)
    (T : String) :
    (DB.prepareStatement stray backend db T).db.dbConn = db.dbConn ∧
    (((DB.prepareStatement stray backend db T).db.preparedStatements = db.preparedStatements ∧
        db.previousStatementId ≤ (DB.prepareStatement stray backend db T).db.previousStatementId ∧
        (DB.prepareStatement stray backend db T).db.previousStatementId
          ≤ db.previousStatementId + 1 ∧
        ((DB.prepareStatement stray backend db T).ret = -1 ∨
          ∃ st, ((DB.prepareStatement stray backend db T).ret, st) ∈ db.preparedStatements)) ∨
      ((DB.prepareStatement stray backend db T).ret = db.previousStatementId + 1 ∧
        (DB.prepareStatement stray backend db T).db.previousStatementId
          = db.previousStatementId + 1 ∧
        (DB.prepareStatement stray backend db T).db.preparedStatements
          = mapAssign db.preparedStatements (db.previousStatementId + 1)
              { name := stmtName stray (db.previousStatementId + 1)
                command := T
                nParams := countParameters T
                type := getSQLCommandType T
                prepared := true } ∧
        getSQLCommandType T ≠ -1)) := by
  unfold DB.prepareStatement
  by_cases hconn : db.dbConn = false
  · simp [hconn]
  by_cases hT : T.length = 0
  · simp [hconn, hT]
  simp only [if_neg hconn, if_neg hT]
  cases hscan : scanCommand db.preparedStatements T with
  | some id =>
    obtain ⟨st, hmem, _⟩ := scanCommand_some _ _ _ hscan
    simp only [le_refl, true_and]
    exact Or.inl ⟨by omega, Or.inr ⟨st, hmem⟩⟩
  | none =>
    simp only []
    by_cases hty : getSQLCommandType T = -1
    · simp [hty]
    simp only [if_neg hty]
    split
    · simp
    · rename_i res hb
      by_cases hst : res.status ≠ ExecStatusType.PGRES_COMMAND_OK
      · simp [hst]
      · simp only [if_neg hst]
        exact ⟨trivial, Or.inr ⟨trivial, trivial, trivial, hty⟩⟩

/-- A text that is not in the cache and is not classified: the call returns
-1, sends nothing and leaves the cache, with the counter one higher. -/
theorem prepareStatement_unclassified (stray : Int → String) (backend : Backend) (db : DB)
    (T : String) (hconn : db.dbConn = true) (hT : T.length ≠ 0)
    (hscan : scanCommand db.preparedStatements T = none)
    (hty : getSQLCommandType T = -1) :
    DB.prepareStatement stray backend db T =
      { ret := -1
        db := { db with previousStatementId := db.previousStatementId + 1 }
        requests := [] } := by
  simp [DB.prepareStatement, hconn, hT, hscan, hty]

/-! ## Invariants of runs -/

theorem cacheOk_prepareStatement (stray : Int → String) (backend : Backend) (db : DB)
    (T : String) (h : CacheOk db) : CacheOk (DB.prepareStatement stray backend db T).db := by
  obtain ⟨h0, hall, hnd⟩ := h
  obtain ⟨_, hcase⟩ := prepareStatement_db stray backend db T
  rcases hcase with ⟨hm, hlo, _, _⟩ | ⟨_, hctr, hm, _⟩
  · refine ⟨by omega, ?_, ?_⟩
    · rw [hm]; exact hall
    · rw [hm]; exact hnd
  · refine ⟨by omega, ?_, ?_⟩
    · rw [hm]
      intro e he
      rcases mem_mapAssign _ _ _ _ he with h | h
      · subst h
        exact ⟨by simp only []; omega, rfl⟩
      · exact hall e h
    · rw [hm]; exact nodup_mapAssign _ _ _ hnd

/-- In every state of a run the cache is well formed and every cached id has
been returned by `prepareStatement`. -/
theorem run_invariant (stray : Int → String) (db : DB) (ids : List Int)
    (h : Run stray db ids) :
    CacheOk db ∧ ∀ e ∈ db.preparedStatements, e.1 ∈ ids := by
  induction h with
  | start => exact ⟨⟨le_refl _, by simp [DB.initial], by simp [DB.initial]⟩, by simp [DB.initial]⟩
  | init conn _ ih =>
    obtain ⟨⟨h0, hall, hnd⟩, hids⟩ := ih
    refine ⟨⟨?_, ?_, ?_⟩, ?_⟩ <;> simp only [DB.init] <;> split <;> assumption
  | @prepare backend T db ids _ ih =>
    obtain ⟨hok, hids⟩ := ih
    refine ⟨cacheOk_prepareStatement stray backend db T hok, ?_⟩
    obtain ⟨_, hcase⟩ := prepareStatement_db stray backend db T
    rcases hcase with ⟨hm, _, _, _⟩ | ⟨hret, _, hm, _⟩
    · rw [hm]
      intro e he
      split
      · exact hids e he
      · exact List.mem_cons_of_mem _ (hids e he)
    · rw [hm]
      have hne : (DB.prepareStatement stray backend db T).ret ≠ -1 := by
        rw [hret]; have := hok.1; omega
      rw [if_neg hne]
      intro e he
      rcases mem_mapAssign _ _ _ _ he with h | h
      · subst h
        rw [hret]
        exact List.mem_cons_self _ _
      · exact List.mem_cons_of_mem _ (hids e h)
  | cleanup _ _ =>
    exact ⟨⟨le_refl _, by simp [DB.cleanup], by simp [DB.cleanup]⟩, by simp [DB.cleanup]⟩

theorem mapFind_eq_none (m : List (Int × Statement)) (id : Int)
    (h : id ∉ m.map Prod.fst) : mapFind m id = none := by
  induction m with
  | nil => rfl
  | cons e m ih =>
    obtain ⟨k, v⟩ := e
    simp only [List.map_cons, List.mem_cons, not_or] at h
    have hk : k ≠ id := fun hk => h.1 hk.symm
    simp only [mapFind, if_neg hk]
    exact ih h.2

/-! ## The claims -/

/-- C1: when `prepareStatement(T)` returns an id (a value other than -1), an
immediately following `prepareStatement(T)` returns the same id, sends nothing
to the backend and leaves the whole state (cache, id counter, connection)
and so `statementCount()` unchanged.  This holds from every state and for
every answer of the backend. -/
theorem prepareStatement_idempotent (stray : Int → String) (b1 b2 : Backend) (db : DB)
    (T : String) (h : (DB.prepareStatement stray b1 db T).ret ≠ -1) :
    (DB.prepareStatement stray b2 (DB.prepareStatement stray b1 db T).db T).ret
        = (DB.prepareStatement stray b1 db T).ret ∧
    (DB.prepareStatement stray b2 (DB.prepareStatement stray b1 db T).db T).requests = [] ∧
    (DB.prepareStatement stray b2 (DB.prepareStatement stray b1 db T).db T).db
        = (DB.prepareStatement stray b1 db T).db ∧
    DB.statementCount (DB.prepareStatement stray b2 (DB.prepareStatement stray b1 db T).db T).db
        = DB.statementCount (DB.prepareStatement stray b1 db T).db := by
  obtain ⟨hc, hT, hs⟩ := prepareStatement_scan_after stray b1 db T h
  rw [prepareStatement_of_scan stray b2 _ T _ hc hT hs]
  exact ⟨rfl, rfl, rfl, rfl⟩

/-- Witness of C1: the text `SELECT 1` prepared twice on a fresh connection. -/
theorem prepareStatement_idempotent_witness :
    (DB.prepareStatement (fun _ => "") acceptAll DB.connected "SELECT 1").ret ≠ -1 ∧
    ((DB.prepareStatement (fun _ => "") (fun _ => none)
        (DB.prepareStatement (fun _ => "") acceptAll DB.connected "SELECT 1").db "SELECT 1").ret
        = (DB.prepareStatement (fun _ => "") acceptAll DB.connected "SELECT 1").ret ∧
    (DB.prepareStatement (fun _ => "") (fun _ => none)
        (DB.prepareStatement (fun _ => "") acceptAll DB.connected "SELECT 1").db
        "SELECT 1").requests = [] ∧
    (DB.prepareStatement (fun _ => "") (fun _ => none)
        (DB.prepareStatement (fun _ => "") acceptAll DB.connected "SELECT 1").db "SELECT 1").db
        = (DB.prepareStatement (fun _ => "") acceptAll DB.connected "SELECT 1").db ∧
    DB.statementCount (DB.prepareStatement (fun _ => "") (fun _ => none)
        (DB.prepareStatement (fun _ => "") acceptAll DB.connected "SELECT 1").db "SELECT 1").db
        = DB.statementCount
            (DB.prepareStatement (fun _ => "") acceptAll DB.connected "SELECT 1").db) :=
  ⟨by decide,
    prepareStatement_idempotent (fun _ => "") acceptAll (fun _ => none) DB.connected
      "SELECT 1" (by decide)⟩

/-- C2: `getSQLCommandType` is the classifier of the specification: it skips
leading whitespace and fails with -1 when nothing remains; otherwise it decides
on the first character in either case (S or W: SELECT, I: INSERT, U: UPDATE,
C: CREATE, A: ALTER, T: TRUNCATE; D: DELETE when the next character is E or e,
DROP when it is R or r, failure when it is anything else or missing; any other
character: failure).  The five example texts classify as stated. -/
theorem getSQLCommandType_classifies :
    (∀ sql : String, getSQLCommandType sql = specClassify sql) ∧
    getSQLCommandType "SELECT * FROM t" = SQL_SELECT ∧
    getSQLCommandType "  insert into t..." = SQL_INSERT ∧
    getSQLCommandType "DELETE FROM t" = SQL_DELETE ∧
    getSQLCommandType "DROP TABLE t" = SQL_DROP ∧
    getSQLCommandType "FOO BAR" = -1 :=
  ⟨getSQLCommandType_eq_spec, by decide, by decide, by decide, by decide, by decide⟩

/-- C3, as stated, fails: the digit run of `$4294967297` has the value
4294967297, and `countParameters` returns 1, the value accumulated in a 32-bit
`int`; the `$3` of a text with a NUL character before it is a place where `$`
is followed by a digit, and `countParameters`, which reads the text through
`c_str()`, stops at the NUL and returns 0. -/
theorem countParameters_not_maximum :
    countParameters "$4294967297" = 1 ∧
    specCountParameters "$4294967297" = 4294967297 ∧
    countParameters "a\x00$3" = 0 ∧
    specCountParameters "a\x00$3" = 3 := by
  decide

/-- C3, amended: for every command text without a NUL character in which the
digit run of every place where `$` is immediately followed by digits has a
value below 2^31, `countParameters` returns the maximum of these values, and 0
when there is no such place. -/
theorem countParameters_eq_maximum (command : String)
    (hnul : ∀ c ∈ command.toList, c.toNat ≠ 0)
    (hfit : ∀ v ∈ specPlaceholderValues command.toList, v < 2147483648) :
    countParameters command = (specCountParameters command : Int) := by
  unfold countParameters specCountParameters
  rw [c_str_of_no_nul _ hnul]
  have h := countLoop_eq (command.toList.length + 1) command.toList 0 (by omega) hfit
  simp only [Nat.cast_zero] at h
  rw [h, foldl_max_eq]
  simp

/-- Witness of C3 amended: placeholders `$1..$3` in another order give 3, and
so does a text with only `$3`. -/
theorem countParameters_eq_maximum_witness :
    (∀ c ∈ "UPDATE t SET a = $2, b = $3 WHERE id = $1".toList, c.toNat ≠ 0) ∧
    (∀ v ∈ specPlaceholderValues "UPDATE t SET a = $2, b = $3 WHERE id = $1".toList,
      v < 2147483648) ∧
    countParameters "UPDATE t SET a = $2, b = $3 WHERE id = $1"
      = (specCountParameters "UPDATE t SET a = $2, b = $3 WHERE id = $1" : Int) ∧
    specCountParameters "UPDATE t SET a = $2, b = $3 WHERE id = $1" = 3 ∧
    countParameters "SELECT $3" = 3 :=
  ⟨by decide, by decide,
    countParameters_eq_maximum "UPDATE t SET a = $2, b = $3 WHERE id = $1"
      (by decide) (by decide),
    by decide, by decide⟩

/-- C4: `exec` applies its checks in a fixed order and sends nothing to the
backend while one of them fails: 1 when the connection is absent; otherwise 2
when the id is not in the cache; otherwise 3 when the cached statement is not
marked prepared; otherwise 4 when the number of parameters differs from the
stored `nParams`; only when all four pass is the one request sent, and the
result is 0 or 5.  So with a connection, in any state of a run, an id that
`prepareStatement` never returned gets the code 2. -/
theorem exec_checks_in_order (stray : Int → String) (backend : Backend) (db : DB) (ID : Int)
    (params : List String) (result : DBResult) :
    (db.dbConn = false →
      (DB.exec backend db ID params result).ret = 1 ∧
      (DB.exec backend db ID params result).requests = []) ∧
    (db.dbConn = true → mapFind db.preparedStatements ID = none →
      (DB.exec backend db ID params result).ret = 2 ∧
      (DB.exec backend db ID params result).requests = []) ∧
    (∀ stmt, db.dbConn = true → mapFind db.preparedStatements ID = some stmt →
      stmt.prepared = false →
      (DB.exec backend db ID params result).ret = 3 ∧
      (DB.exec backend db ID params result).requests = []) ∧
    (∀ stmt, db.dbConn = true → mapFind db.preparedStatements ID = some stmt →
      stmt.prepared = true → (params.length : Int) ≠ stmt.nParams →
      (DB.exec backend db ID params result).ret = 4 ∧
      (DB.exec backend db ID params result).requests = []) ∧
    (∀ stmt, db.dbConn = true → mapFind db.preparedStatements ID = some stmt →
      stmt.prepared = true → (params.length : Int) = stmt.nParams →
      (DB.exec backend db ID params result).requests
        = [Request.execPrepared (cstring stmt.name) stmt.nParams (params.map cstring)] ∧
      ((DB.exec backend db ID params result).ret = 0 ∨
        (DB.exec backend db ID params result).ret = 5)) ∧
    (∀ ids, Run stray db ids → ID ∉ ids → db.dbConn = true →
      (DB.exec backend db ID params result).ret = 2) := by
  refine ⟨?_, ?_, ?_, ?_, ?_, ?_⟩
  · intro hc
    simp [DB.exec, hc]
  · intro hc hf
    simp [DB.exec, hc, hf]
  · intro stmt hc hf hp
    simp [DB.exec, hc, hf, hp]
  · intro stmt hc hf hp hl
    simp [DB.exec, hc, hf, hp, hl]
  · intro stmt hc hf hp hl
    simp only [DB.exec, hc, hf, hp, hl]
    by_cases hchk : DB.checkResult
        (backend (Request.execPrepared (cstring stmt.name) stmt.nParams (params.map cstring)))
        stmt.type = false
    · simp [hchk]
    · simp [hchk]
  · intro ids hrun hid hc
    have hkeys := (run_invariant stray db ids hrun).2
    have hf : mapFind db.preparedStatements ID = none := by
      apply mapFind_eq_none
      intro hmem
      obtain ⟨e, he, rfl⟩ := List.mem_map.1 hmem
      exact hid (hkeys e he)
    simp [DB.exec, hc, hf]

/-- Witness of C4: each of the codes 1 to 4, the passing case, and an id never
returned in a run, on small states. -/
theorem exec_checks_in_order_witness :
    (DB.exec acceptAll DB.initial 1 [] ⟨none⟩).ret = 1 ∧
    (DB.exec acceptAll DB.connected 7 [] ⟨none⟩).ret = 2 ∧
    (DB.exec acceptAll
      { dbConn := true
        preparedStatements := [(1, { name := "tmt_", command := "SELECT 1", nParams := 0,
                                     type := 0, prepared := false })]
        previousStatementId := 1 } 1 [] ⟨none⟩).ret = 3 ∧
    (DB.exec acceptAll
      (DB.prepareStatement (fun _ => "") acceptAll DB.connected "SELECT $1").db 1
      [] ⟨none⟩).ret = 4 ∧
    (DB.exec acceptAll
      (DB.prepareStatement (fun _ => "") acceptAll DB.connected "SELECT $1").db 1
      ["42"] ⟨none⟩).requests = [Request.execPrepared "tmt_" 1 ["42"]] ∧
    (DB.exec acceptAll
      (DB.prepareStatement (fun _ => "") acceptAll DB.connected "SELECT $1").db 2
      ["42"] ⟨none⟩).ret = 2 :=
  ⟨((exec_checks_in_order (fun _ => "") acceptAll DB.initial 1 [] ⟨none⟩).1 rfl).1,
    ((exec_checks_in_order (fun _ => "") acceptAll DB.connected 7 [] ⟨none⟩).2.1 rfl rfl).1,
    ((exec_checks_in_order (fun _ => "") acceptAll
      { dbConn := true
        preparedStatements := [(1, { name := "tmt_", command := "SELECT 1", nParams := 0,
                                     type := 0, prepared := false })]
        previousStatementId := 1 } 1 [] ⟨none⟩).2.2.1
      { name := "tmt_", command := "SELECT 1", nParams := 0, type := 0, prepared := false }
      rfl (by decide) rfl).1,
    ((exec_checks_in_order (fun _ => "") acceptAll
      (DB.prepareStatement (fun _ => "") acceptAll DB.connected "SELECT $1").db 1 [] ⟨none⟩
      ).2.2.2.1
      { name := "tmt_", command := "SELECT $1", nParams := 1, type := 0, prepared := true }
      rfl (by decide) rfl (by decide)).1,
    ((exec_checks_in_order (fun _ => "") acceptAll
      (DB.prepareStatement (fun _ => "") acceptAll DB.connected "SELECT $1").db 1 ["42"] ⟨none⟩
      ).2.2.2.2.1
      { name := "tmt_", command := "SELECT $1", nParams := 1, type := 0, prepared := true }
      rfl (by decide) rfl (by decide)).1.trans (by decide),
    (exec_checks_in_order (fun _ => "") acceptAll
      (DB.prepareStatement (fun _ => "") acceptAll DB.connected "SELECT $1").db 2 ["42"] ⟨none⟩
      ).2.2.2.2.2 [1]
      (Run.prepare acceptAll "SELECT $1" (Run.init (some true) Run.start))
      (by decide) rfl⟩

/-- C5: `checkResult` is the result validation matrix: it returns true exactly
when the handle is not null and either the kind is SELECT and the status is
rows-returned, or the kind is INSERT, UPDATE, DELETE or TRUNCATE and the status
is command-completed or rows-returned, or the kind is CREATE, ALTER or DROP and
the status is command-completed.  A null handle is rejected for every kind, and
a kind outside the eight is rejected for every handle. -/
theorem checkResult_matrix (res : Option PGresult) (type : Int) :
    (DB.checkResult res type = true ↔
      ∃ r, res = some r ∧
        ((type = SQL_SELECT ∧ r.status = ExecStatusType.PGRES_TUPLES_OK) ∨
         ((type = SQL_INSERT ∨ type = SQL_UPDATE ∨ type = SQL_DELETE ∨ type = SQL_TRUNCATE) ∧
            (r.status = ExecStatusType.PGRES_COMMAND_OK ∨
              r.status = ExecStatusType.PGRES_TUPLES_OK)) ∨
         ((type = SQL_CREATE ∨ type = SQL_ALTER ∨ type = SQL_DROP) ∧
            r.status = ExecStatusType.PGRES_COMMAND_OK))) ∧
    DB.checkResult none type = false ∧
    (type ≠ SQL_SELECT ∧ type ≠ SQL_INSERT ∧ type ≠ SQL_CREATE ∧ type ≠ SQL_UPDATE ∧
      type ≠ SQL_ALTER ∧ type ≠ SQL_DROP ∧ type ≠ SQL_DELETE ∧ type ≠ SQL_TRUNCATE →
      DB.checkResult res type = false) := by
  refine ⟨?_, rfl, ?_⟩
  · cases res with
    | none => simp [DB.checkResult]
    | some r =>
      simp only [DB.checkResult, SQL_SELECT, SQL_INSERT, SQL_CREATE, SQL_UPDATE, SQL_ALTER,
        SQL_DROP, SQL_DELETE, SQL_TRUNCATE, Option.some.injEq, exists_eq_left']
      by_cases h0 : type = 0
      · subst h0; simp
      by_cases h1 : type = 1 ∨ type = 3 ∨ type = 6 ∨ type = 7
      · have g : ¬ (type = 2 ∨ type = 4 ∨ type = 5) := by omega
        simp [h0, h1, g]
      by_cases h2 : type = 2 ∨ type = 4 ∨ type = 5
      · simp [h0, h1, h2]
      · simp [h0, h1, h2]
  · rintro ⟨h0, h1, h2, h3, h4, h5, h6, h7⟩
    cases res with
    | none => rfl
    | some r =>
      have g1 : ¬ (type = SQL_INSERT ∨ type = SQL_UPDATE ∨ type = SQL_DELETE ∨
          type = SQL_TRUNCATE) := by
        rintro (h | h | h | h) <;> contradiction
      have g2 : ¬ (type = SQL_CREATE ∨ type = SQL_ALTER ∨ type = SQL_DROP) := by
        rintro (h | h | h) <;> contradiction
      simp only [DB.checkResult, if_neg h0, if_neg g1, if_neg g2]

/-- C6: when `exec` passes its four checks (connection present, id cached,
statement prepared, number of parameters equal to `nParams`), it sends the
execution request, and it returns 0 exactly when `checkResult` accepts the
backend's answer for the statement's kind; then the holder holds that answer
and `isValid()` is true.  Otherwise it returns 5 and the holder is null
(`isValid()` false). -/
theorem exec_validates (backend : Backend) (db : DB) (ID : Int) (params : List String)
    (result : DBResult) (stmt : Statement)
    (hconn : db.dbConn = true) (hfind : mapFind db.preparedStatements ID = some stmt)
    (hprep : stmt.prepared = true) (hlen : (params.length : Int) = stmt.nParams) :
    ((DB.exec backend db ID params result).ret = 0 ↔
      DB.checkResult
        (backend (Request.execPrepared (cstring stmt.name) stmt.nParams (params.map cstring)))
        stmt.type = true) ∧
    (DB.checkResult
        (backend (Request.execPrepared (cstring stmt.name) stmt.nParams (params.map cstring)))
        stmt.type = true →
      (DB.exec backend db ID params result).result.result
        = backend (Request.execPrepared (cstring stmt.name) stmt.nParams (params.map cstring)) ∧
      (DB.exec backend db ID params result).result.isValid = true) ∧
    (DB.checkResult
        (backend (Request.execPrepared (cstring stmt.name) stmt.nParams (params.map cstring)))
        stmt.type = false →
      (DB.exec backend db ID params result).ret = 5 ∧
      (DB.exec backend db ID params result).result.isValid = false) := by
  simp only [DB.exec, hconn, hfind, hprep, hlen]
  cases hb : backend (Request.execPrepared (cstring stmt.name) stmt.nParams
      (params.map cstring)) with
  | none => simp [DB.checkResult, DBResult.isValid]
  | some r =>
    by_cases hchk : DB.checkResult (some r) stmt.type = false
    · simp [hchk, DBResult.isValid]
    · simp [hchk, DBResult.isValid]

/-- Witness of C6: a SELECT statement executed against a backend that returns
rows. -/
theorem exec_validates_witness :
    (DB.exec acceptAll
      (DB.prepareStatement (fun _ => "") acceptAll DB.connected "SELECT $1").db 1
      ["42"] ⟨none⟩).ret = 0 ∧
    (DB.exec acceptAll
      (DB.prepareStatement (fun _ => "") acceptAll DB.connected "SELECT $1").db 1
      ["42"] ⟨none⟩).result.isValid = true :=
  ⟨(exec_validates acceptAll
      (DB.prepareStatement (fun _ => "") acceptAll DB.connected "SELECT $1").db 1 ["42"] ⟨none⟩
      { name := "tmt_", command := "SELECT $1", nParams := 1, type := 0, prepared := true }
      rfl (by decide) rfl (by decide)).1.2 (by decide),
    ((exec_validates acceptAll
      (DB.prepareStatement (fun _ => "") acceptAll DB.connected "SELECT $1").db 1 ["42"] ⟨none⟩
      { name := "tmt_", command := "SELECT $1", nParams := 1, type := 0, prepared := true }
      rfl (by decide) rfl (by decide)).2.1 (by decide)).2⟩

/-- C7: end to end.  From the state with a connection, an empty cache and the
counter at 0, for a classifiable text `T` whose prepare request the backend
accepts, `prepareStatement(T)` returns 1 and stores under id 1 a prepared
statement with `nParams = countParameters(T)` and `type = getSQLCommandType(T)`.
After that `exec(1, params, holder)` returns 4 exactly when the number of
parameters differs from `countParameters(T)`, and returns 0 with a valid holder
when the number matches, `T` is of SELECT kind and the backend answers the
execution request with a rows-returned result. -/
theorem prepare_then_exec (stray : Int → String) (bp : Backend) (T : String) (res : PGresult)
    (hT : getSQLCommandType T ≠ -1)
    (hb : bp (Request.prepare (cstring (stmtName stray 1)) (cstring T) (countParameters T))
      = some res)
    (hok : res.status = ExecStatusType.PGRES_COMMAND_OK) :
    (DB.prepareStatement stray bp DB.connected T).ret = 1 ∧
    mapFind (DB.prepareStatement stray bp DB.connected T).db.preparedStatements 1
      = some { name := stmtName stray 1, command := T, nParams := countParameters T,
               type := getSQLCommandType T, prepared := true } ∧
    (∀ (be : Backend) (params : List String) (holder : DBResult),
      (DB.exec be (DB.prepareStatement stray bp DB.connected T).db 1 params holder).ret = 4
        ↔ (params.length : Int) ≠ countParameters T) ∧
    (∀ (be : Backend) (params : List String) (holder : DBResult) (r : PGresult),
      (params.length : Int) = countParameters T →
      getSQLCommandType T = SQL_SELECT →
      be (Request.execPrepared (cstring (stmtName stray 1)) (countParameters T)
        (params.map cstring)) = some r →
      r.status = ExecStatusType.PGRES_TUPLES_OK →
      (DB.exec be (DB.prepareStatement stray bp DB.connected T).db 1 params holder).ret = 0 ∧
      (DB.exec be (DB.prepareStatement stray bp DB.connected T).db 1 params
        holder).result.isValid = true) := by
  have hlen : T.length ≠ 0 := by
    intro h
    have : T.toList = [] := List.length_eq_zero.1 h
    apply hT
    unfold getSQLCommandType
    rw [this]
    rfl
  have hprep : DB.prepareStatement stray bp DB.connected T =
      { ret := 1
        db := { dbConn := true
                preparedStatements :=
                  [(1, { name := stmtName stray 1, command := T, nParams := countParameters T,
                         type := getSQLCommandType T, prepared := true })]
                previousStatementId := 1 }
        requests := [Request.prepare (cstring (stmtName stray 1)) (cstring T)
          (countParameters T)] } := by
    simp [DB.prepareStatement, DB.connected, hlen, scanCommand, hT, hb, hok, mapAssign]
  rw [hprep]
  refine ⟨rfl, by simp [mapFind], ?_, ?_⟩
  · intro be params holder
    simp only [DB.exec, mapFind]
    by_cases hl : (params.length : Int) = countParameters T
    · simp only [hl]
      by_cases hchk : DB.checkResult
          (be (Request.execPrepared (cstring (stmtName stray 1)) (countParameters T)
            (params.map cstring))) (getSQLCommandType T) = false
      · simp [hchk]
      · simp [hchk]
    · simp [hl]
  · intro be params holder r hl hsel hbe hr
    simp [DB.exec, mapFind, hl, hbe, DB.checkResult, hsel, hr, DBResult.isValid]

/-- Witness of C7: the text of the usage example, with one parameter: two
parameters give 4, one parameter gives 0 and a valid holder. -/
theorem prepare_then_exec_witness :
    (DB.prepareStatement (fun _ => "") acceptAll DB.connected
      "SELECT * FROM users WHERE id = $1").ret = 1 ∧
    (DB.exec acceptAll (DB.prepareStatement (fun _ => "") acceptAll DB.connected
      "SELECT * FROM users WHERE id = $1").db 1 ["42", "x"] ⟨none⟩).ret = 4 ∧
    (DB.exec acceptAll (DB.prepareStatement (fun _ => "") acceptAll DB.connected
      "SELECT * FROM users WHERE id = $1").db 1 ["42"] ⟨none⟩).ret = 0 ∧
    (DB.exec acceptAll (DB.prepareStatement (fun _ => "") acceptAll DB.connected
      "SELECT * FROM users WHERE id = $1").db 1 ["42"] ⟨none⟩).result.isValid = true :=
  have h := prepare_then_exec (fun _ => "") acceptAll "SELECT * FROM users WHERE id = $1"
    { status := ExecStatusType.PGRES_COMMAND_OK, ntuples := 0, nfields := 0, cells := [] }
    (by decide) rfl rfl
  ⟨h.1, (h.2.2.1 acceptAll ["42", "x"] ⟨none⟩).2 (by decide),
    (h.2.2.2 acceptAll ["42"] ⟨none⟩
      { status := ExecStatusType.PGRES_TUPLES_OK, ntuples := 1, nfields := 1,
        cells := [["42"]] }
      (by decide) (by decide) rfl rfl).1,
    (h.2.2.2 acceptAll ["42"] ⟨none⟩
      { status := ExecStatusType.PGRES_TUPLES_OK, ntuples := 1, nfields := 1,
        cells := [["42"]] }
      (by decide) (by decide) rfl rfl).2⟩

/-- C8: in every state of a run and for every text, `prepareStatement` returns
-1 or an id that is at least 1; when it returns an id, `statementExists(id)` is
true afterwards and the statement cached under the id has the given text as
its command and is marked prepared. -/
theorem prepareStatement_returns_cached_id (stray : Int → String) (backend : Backend)
    (db : DB) (ids : List Int) (T : String) (hrun : Run stray db ids) :
    ((DB.prepareStatement stray backend db T).ret = -1 ∨
      1 ≤ (DB.prepareStatement stray backend db T).ret) ∧
    ((DB.prepareStatement stray backend db T).ret ≠ -1 →
      DB.statementExists (DB.prepareStatement stray backend db T).db
        (DB.prepareStatement stray backend db T).ret = true ∧
      ∃ st, mapFind (DB.prepareStatement stray backend db T).db.preparedStatements
          (DB.prepareStatement stray backend db T).ret = some st ∧
        st.command = T ∧ st.prepared = true) := by
  have hok := cacheOk_prepareStatement stray backend db T (run_invariant stray db ids hrun).1
  obtain ⟨_, hall, hnd⟩ := hok
  have key : (DB.prepareStatement stray backend db T).ret ≠ -1 →
      ∃ st, ((DB.prepareStatement stray backend db T).ret, st)
          ∈ (DB.prepareStatement stray backend db T).db.preparedStatements ∧
        st.command = T := by
    intro h
    exact scanCommand_some _ _ _ (prepareStatement_scan_after stray backend db T h).2.2
  constructor
  · by_cases h : (DB.prepareStatement stray backend db T).ret = -1
    · exact Or.inl h
    · obtain ⟨st, hmem, _⟩ := key h
      exact Or.inr (hall _ hmem).1
  · intro h
    obtain ⟨st, hmem, hcmd⟩ := key h
    have hf := mapFind_of_mem _ _ _ hnd hmem
    refine ⟨by simp [DB.statementExists, hf], st, hf, hcmd, (hall _ hmem).2⟩

/-- Witness of C8: a second text prepared after a first one in a run. -/
theorem prepareStatement_returns_cached_id_witness :
    ((DB.prepareStatement (fun _ => "") acceptAll
        (DB.prepareStatement (fun _ => "") acceptAll (DB.init (some true) DB.initial).2
          "SELECT 1").db "DROP TABLE t").ret = -1 ∨
      1 ≤ (DB.prepareStatement (fun _ => "") acceptAll
        (DB.prepareStatement (fun _ => "") acceptAll (DB.init (some true) DB.initial).2
          "SELECT 1").db "DROP TABLE t").ret) ∧
    ((DB.prepareStatement (fun _ => "") acceptAll
        (DB.prepareStatement (fun _ => "") acceptAll (DB.init (some true) DB.initial).2
          "SELECT 1").db "DROP TABLE t").ret ≠ -1 →
      DB.statementExists (DB.prepareStatement (fun _ => "") acceptAll
        (DB.prepareStatement (fun _ => "") acceptAll (DB.init (some true) DB.initial).2
          "SELECT 1").db "DROP TABLE t").db
        (DB.prepareStatement (fun _ => "") acceptAll
        (DB.prepareStatement (fun _ => "") acceptAll (DB.init (some true) DB.initial).2
          "SELECT 1").db "DROP TABLE t").ret = true ∧
      ∃ st, mapFind (DB.prepareStatement (fun _ => "") acceptAll
        (DB.prepareStatement (fun _ => "") acceptAll (DB.init (some true) DB.initial).2
          "SELECT 1").db "DROP TABLE t").db.preparedStatements
          (DB.prepareStatement (fun _ => "") acceptAll
        (DB.prepareStatement (fun _ => "") acceptAll (DB.init (some true) DB.initial).2
          "SELECT 1").db "DROP TABLE t").ret = some st ∧
        st.command = "DROP TABLE t" ∧ st.prepared = true) :=
  prepareStatement_returns_cached_id (fun _ => "") acceptAll _ _ "DROP TABLE t"
    (Run.prepare acceptAll "SELECT 1" (Run.init (some true) Run.start))

/-- C9 fails on the code: the first statement prepared on a fresh connection
gets the id 1, and the name sent to the backend and stored in the cache is
`tmt_`, the literal `stmt_` read from offset 1, not `stmt_1`. -/
theorem stmtName_is_literal_suffix :
    ∀ stray : Int → String,
      (DB.prepareStatement stray acceptAll DB.connected "SELECT 1").ret = 1 ∧
      (DB.prepareStatement stray acceptAll DB.connected "SELECT 1").requests
        = [Request.prepare "tmt_" "SELECT 1" 0] ∧
      mapFind (DB.prepareStatement stray acceptAll DB.connected "SELECT 1").db.preparedStatements
          1 = some { name := "tmt_", command := "SELECT 1", nParams := 0, type := SQL_SELECT,
                     prepared := true } ∧
      specStmtName 1 = "stmt_1" ∧ stmtName stray 1 ≠ specStmtName 1 := by
  intro stray
  exact ⟨rfl, rfl, rfl, by decide, by
    have : stmtName stray 1 = "tmt_" := rfl
    rw [this]; decide⟩

/-- C10 fails on the code: with a connection and an empty cache, the text
`FOO BAR`, which is not classified, makes `prepareStatement` return -1 with the
cache unchanged and nothing sent to the backend, but the id counter goes from
0 to 1. -/
theorem prepareStatement_unclassified_keeps_increment :
    getSQLCommandType "FOO BAR" = -1 ∧
    (DB.prepareStatement (fun _ => "") acceptAll DB.connected "FOO BAR").ret = -1 ∧
    (DB.prepareStatement (fun _ => "") acceptAll DB.connected "FOO BAR").requests = [] ∧
    (DB.prepareStatement (fun _ => "") acceptAll DB.connected "FOO BAR").db.preparedStatements
      = DB.connected.preparedStatements ∧
    DB.connected.previousStatementId = 0 ∧
    (DB.prepareStatement (fun _ => "") acceptAll DB.connected
      "FOO BAR").db.previousStatementId = 1 := by
  decide

/-! ## Further invariants of runs -/

theorem mem_of_mapFind (m : List (Int × Statement)) (id : Int) (st : Statement)
    (h : mapFind m id = some st) : (id, st) ∈ m := by
  induction m with
  | nil => simp [mapFind] at h
  | cons e m ih =>
    obtain ⟨k, v⟩ := e
    simp only [mapFind] at h
    split at h
    · rename_i hk
      have hv : v = st := by simpa using h
      subst hk; subst hv
      exact List.mem_cons_self _ _
    · exact List.mem_cons_of_mem _ (ih h)

theorem scanCommand_none (m : List (Int × Statement)) (T : String)
    (h : scanCommand m T = none) : T ∉ m.map (fun e => e.2.command) := by
  induction m with
  | nil => simp
  | cons e m ih =>
    obtain ⟨k, v⟩ := e
    simp only [scanCommand] at h
    split at h
    · exact absurd h (by simp)
    · rename_i hv
      simp only [List.map_cons, List.mem_cons, not_or]
      exact ⟨fun hT => hv hT.symm, ih h⟩

theorem texts_mapAssign (m : List (Int × Statement)) (id : Int) (st : Statement)
    (hnd : (m.map (fun e => e.2.command)).Nodup)
    (hnew : st.command ∉ m.map (fun e => e.2.command)) :
    ((mapAssign m id st).map (fun e => e.2.command)).Nodup := by
  induction m with
  | nil => simp [mapAssign]
  | cons x m ih =>
    obtain ⟨k, v⟩ := x
    simp only [List.map_cons, List.nodup_cons, List.mem_cons, not_or] at hnd hnew
    simp only [mapAssign]
    split
    · simp only [List.map_cons, List.nodup_cons]
      exact ⟨hnew.2, hnd.2⟩
    · simp only [List.map_cons, List.nodup_cons]
      refine ⟨?_, ih hnd.2 hnew.2⟩
      intro hin
      obtain ⟨e, he, hcmd⟩ := List.mem_map.1 hin
      rcases mem_mapAssign m id st e he with h | h
      · subst h
        exact hnew.1 hcmd
      · exact hnd.1 (List.mem_map.2 ⟨e, h, hcmd⟩)

/-- A store under an id that is not in the map adds one entry and keeps the
others. -/
theorem mapAssign_fresh (m : List (Int × Statement)) (id : Int) (st : Statement)
    (h : id ∉ m.map Prod.fst) : mapAssign m id st = m ++ [(id, st)] := by
  induction m with
  | nil => rfl
  | cons x m ih =>
    obtain ⟨k, v⟩ := x
    simp only [List.map_cons, List.mem_cons, not_or] at h
    have hk : k ≠ id := fun hk => h.1 hk.symm
    simp only [mapAssign, if_neg hk, List.cons_append, ih h.2]

/-- In every state of a run no two cached statements have the same text, every
cached id lies between 1 and the counter, and every cached statement is as
`prepareStatement` stores it. -/
theorem run_cache (stray : Int → String) (db : DB) (ids : List Int)
    (h : Run stray db ids) : TextsDistinct db ∧ IdsBelowCounter db ∧ StoredOk db := by
  induction h with
  | start =>
    exact ⟨by simp [TextsDistinct, DB.initial], by simp [IdsBelowCounter, DB.initial],
      by simp [StoredOk, DB.initial]⟩
  | init conn _ ih =>
    obtain ⟨h1, h2, h3⟩ := ih
    refine ⟨?_, ?_, ?_⟩
    · unfold TextsDistinct DB.init; split <;> exact h1
    · unfold IdsBelowCounter DB.init; split <;> exact h2
    · unfold StoredOk DB.init; split <;> exact h3
  | @prepare backend T db ids _ ih =>
    obtain ⟨h1, h2, h3⟩ := ih
    obtain ⟨_, hcase⟩ := prepareStatement_db stray backend db T
    rcases hcase with ⟨hm, hlo, _, _⟩ | ⟨_, hctr, hm, hty⟩
    · refine ⟨?_, ?_, ?_⟩
      · unfold TextsDistinct; rw [hm]; exact h1
      · unfold IdsBelowCounter; rw [hm]
        intro e he
        have := h2 e he
        exact ⟨this.1, by omega⟩
      · unfold StoredOk; rw [hm]; exact h3
    · have hscan : scanCommand db.preparedStatements T = none := by
        cases hs : scanCommand db.preparedStatements T with
        | none => rfl
        | some id =>
          exfalso
          by_cases hconn : db.dbConn = true
          · by_cases hT : T.length = 0
            · have := hm
              simp [DB.prepareStatement, hconn, hT] at hctr
            · have := prepareStatement_of_scan stray backend db T id hconn hT hs
              rw [this] at hctr
              simp at hctr
          · have hc : db.dbConn = false := by simpa using hconn
            simp [DB.prepareStatement, hc] at hctr
      refine ⟨?_, ?_, ?_⟩
      · unfold TextsDistinct; rw [hm]
        exact texts_mapAssign _ _ _ h1 (scanCommand_none _ _ hscan)
      · unfold IdsBelowCounter; rw [hm, hctr]
        intro e he
        rcases mem_mapAssign _ _ _ _ he with h | h
        · subst h
          have := (run_invariant stray db ids ‹_›).1.1
          exact ⟨by simp only []; omega, le_refl _⟩
        · have := h2 e h
          exact ⟨this.1, by omega⟩
      · unfold StoredOk; rw [hm]
        intro e he
        rcases mem_mapAssign _ _ _ _ he with h | h
        · subst h
          exact ⟨rfl, rfl, hty, rfl⟩
        · exact h3 e h
  | cleanup _ _ =>
    exact ⟨by simp [TextsDistinct, DB.cleanup], by simp [IdsBelowCounter, DB.cleanup],
      by simp [StoredOk, DB.cleanup]⟩

/-! ## The claims, continued -/

/-- C11: with a connection, for a classifiable text that is not in the cache,
when the backend rejects the prepare request (a null result, or a result whose
status is not command-completed), `prepareStatement` returns -1 after that one
request, and the id counter and the cache, indeed the whole state, are as
before the call. -/
theorem prepareStatement_rejected_rolls_back (stray : Int → String) (backend : Backend)
    (db : DB) (T : String) (hconn : db.dbConn = true)
    (hscan : scanCommand db.preparedStatements T = none)
    (hty : getSQLCommandType T ≠ -1)
    (hrej : backend (Request.prepare (cstring (stmtName stray (db.previousStatementId + 1)))
        (cstring T) (countParameters T)) = none ∨
      ∃ res, backend (Request.prepare (cstring (stmtName stray (db.previousStatementId + 1)))
        (cstring T) (countParameters T)) = some res ∧
        res.status ≠ ExecStatusType.PGRES_COMMAND_OK) :
    (DB.prepareStatement stray backend db T).ret = -1 ∧
    (DB.prepareStatement stray backend db T).db.previousStatementId
      = db.previousStatementId ∧
    (DB.prepareStatement stray backend db T).db.preparedStatements
      = db.preparedStatements ∧
    (DB.prepareStatement stray backend db T).db = db ∧
    (DB.prepareStatement stray backend db T).requests
      = [Request.prepare (cstring (stmtName stray (db.previousStatementId + 1)))
          (cstring T) (countParameters T)] := by
  have hT : T.length ≠ 0 := by
    intro h
    have : T.toList = [] := List.length_eq_zero.1 h
    apply hty
    unfold getSQLCommandType
    rw [this]
    rfl
  obtain ⟨c, m, n⟩ := db
  simp only at hconn hscan hrej
  subst hconn
  rcases hrej with hnone | ⟨res, hsome, hst⟩
  · simp [DB.prepareStatement, hT, hscan, hty, hnone]
  · simp [DB.prepareStatement, hT, hscan, hty, hsome, hst]

/-- Witness of C11: `SELECT 1` on a fresh connection, with a backend that
answers with a fatal error. -/
theorem prepareStatement_rejected_rolls_back_witness :
    (DB.prepareStatement (fun _ => "") rejectAll DB.connected "SELECT 1").ret = -1 ∧
    (DB.prepareStatement (fun _ => "") rejectAll DB.connected "SELECT 1").db.previousStatementId
      = DB.connected.previousStatementId ∧
    (DB.prepareStatement (fun _ => "") rejectAll DB.connected "SELECT 1").db.preparedStatements
      = DB.connected.preparedStatements ∧
    (DB.prepareStatement (fun _ => "") rejectAll DB.connected "SELECT 1").db = DB.connected ∧
    (DB.prepareStatement (fun _ => "") rejectAll DB.connected "SELECT 1").requests
      = [Request.prepare (cstring (stmtName (fun _ => "") (DB.connected.previousStatementId + 1)))
          (cstring "SELECT 1") (countParameters "SELECT 1")] :=
  prepareStatement_rejected_rolls_back (fun _ => "") rejectAll DB.connected "SELECT 1"
    rfl rfl (by decide)
    (Or.inr ⟨{ status := ExecStatusType.PGRES_FATAL_ERROR, ntuples := 0, nfields := 0,
               cells := [] }, rfl, by decide⟩)

/-- C12 fails on the code: after `init`, a text that is not classified
(`FOO BAR`, which returns -1) and then `SELECT 1`, the run is in a state whose
cache holds one statement, under the id 2: `statementCount()` is 1, the id 1 is
not in the cache, and the ids are not `1..statementCount()`. -/
theorem ids_gap_after_unclassified :
    Run (fun _ => "")
      (DB.prepareStatement (fun _ => "") acceptAll
        (DB.prepareStatement (fun _ => "") acceptAll (DB.init (some true) DB.initial).2
          "FOO BAR").db "SELECT 1").db [2] ∧
    (DB.prepareStatement (fun _ => "") acceptAll (DB.init (some true) DB.initial).2
      "FOO BAR").ret = -1 ∧
    (DB.prepareStatement (fun _ => "") acceptAll
      (DB.prepareStatement (fun _ => "") acceptAll (DB.init (some true) DB.initial).2
        "FOO BAR").db "SELECT 1").ret = 2 ∧
    DB.statementCount (DB.prepareStatement (fun _ => "") acceptAll
      (DB.prepareStatement (fun _ => "") acceptAll (DB.init (some true) DB.initial).2
        "FOO BAR").db "SELECT 1").db = 1 ∧
    DB.statementExists (DB.prepareStatement (fun _ => "") acceptAll
      (DB.prepareStatement (fun _ => "") acceptAll (DB.init (some true) DB.initial).2
        "FOO BAR").db "SELECT 1").db 1 = false ∧
    DB.statementExists (DB.prepareStatement (fun _ => "") acceptAll
      (DB.prepareStatement (fun _ => "") acceptAll (DB.init (some true) DB.initial).2
        "FOO BAR").db "SELECT 1").db 2 = true :=
  ⟨Run.prepare acceptAll "SELECT 1"
      (Run.prepare acceptAll "FOO BAR" (Run.init (some true) Run.start)),
    by decide, by decide, by decide, by decide, by decide⟩

/-- C13: in every state of a run the cache has no two entries with the same
command text: the texts of its entries are pairwise distinct, and two ids whose
cached statements have the same text are the same id. -/
theorem cache_texts_distinct (stray : Int → String) (db : DB) (ids : List Int)
    (hrun : Run stray db ids) :
    TextsDistinct db ∧
    ∀ (i j : Int) (st1 st2 : Statement),
      mapFind db.preparedStatements i = some st1 →
      mapFind db.preparedStatements j = some st2 →
      st1.command = st2.command → i = j := by
  have hd := (run_cache stray db ids hrun).1
  refine ⟨hd, ?_⟩
  intro i j st1 st2 h1 h2 hcmd
  have m1 := mem_of_mapFind _ _ _ h1
  have m2 := mem_of_mapFind _ _ _ h2
  have := List.inj_on_of_nodup_map hd m1 m2 hcmd
  exact (Prod.mk.inj this).1

/-- Witness of C13: a run that prepares `SELECT 1`, then `DROP TABLE t`, then
`SELECT 1` again. -/
theorem cache_texts_distinct_witness :
    TextsDistinct
      (DB.prepareStatement (fun _ => "") acceptAll
        (DB.prepareStatement (fun _ => "") acceptAll
          (DB.prepareStatement (fun _ => "") acceptAll (DB.init (some true) DB.initial).2
            "SELECT 1").db "DROP TABLE t").db "SELECT 1").db :=
  (cache_texts_distinct (fun _ => "") _ _
    (Run.prepare acceptAll "SELECT 1"
      (Run.prepare acceptAll "DROP TABLE t"
        (Run.prepare acceptAll "SELECT 1" (Run.init (some true) Run.start))))).1

/-- C14, as stated, fails: a holder that holds the valid result of an earlier
`exec` is passed to an `exec` with two parameters for a statement of one
parameter; the call returns 4 and the holder still holds the earlier result
(`isValid()` true). -/
theorem exec_error_keeps_holder :
    (DB.exec acceptAll
      (DB.prepareStatement (fun _ => "") acceptAll DB.connected "SELECT $1").db 1
      ["42"] ⟨none⟩).result.isValid = true ∧
    (DB.exec acceptAll
      (DB.prepareStatement (fun _ => "") acceptAll DB.connected "SELECT $1").db 1
      ["42", "x"]
      (DB.exec acceptAll
        (DB.prepareStatement (fun _ => "") acceptAll DB.connected "SELECT $1").db 1
        ["42"] ⟨none⟩).result).ret = 4 ∧
    (DB.exec acceptAll
      (DB.prepareStatement (fun _ => "") acceptAll DB.connected "SELECT $1").db 1
      ["42", "x"]
      (DB.exec acceptAll
        (DB.prepareStatement (fun _ => "") acceptAll DB.connected "SELECT $1").db 1
        ["42"] ⟨none⟩).result).result.isValid = true := by
  decide

/-- C14, amended: for every state, id, parameter list and holder, when `exec`
returns 5 the holder is invalid afterwards, and when it returns another
non-zero code (1, 2, 3 or 4) the holder is as it was before the call; so a
holder that was invalid before the call is invalid after every non-zero
return.  In particular `exec` with a parameter list whose length differs from
the `nParams` of the prepared statement returns 4 and leaves the holder as it
was. -/
theorem exec_error_holder (backend : Backend) (db : DB) (ID : Int) (params : List String)
    (result : DBResult) :
    ((DB.exec backend db ID params result).ret = 5 →
      (DB.exec backend db ID params result).result.isValid = false) ∧
    ((DB.exec backend db ID params result).ret ≠ 0 →
      (DB.exec backend db ID params result).ret ≠ 5 →
      (DB.exec backend db ID params result).result = result ∧
      ((DB.exec backend db ID params result).ret = 1 ∨
       (DB.exec backend db ID params result).ret = 2 ∨
       (DB.exec backend db ID params result).ret = 3 ∨
       (DB.exec backend db ID params result).ret = 4)) ∧
    (result.isValid = false → (DB.exec backend db ID params result).ret ≠ 0 →
      (DB.exec backend db ID params result).result.isValid = false) ∧
    (∀ stmt, db.dbConn = true → mapFind db.preparedStatements ID = some stmt →
      stmt.prepared = true → (params.length : Int) ≠ stmt.nParams →
      (DB.exec backend db ID params result).ret = 4 ∧
      (DB.exec backend db ID params result).result = result) := by
  have key : ((DB.exec backend db ID params result).result = result ∧
        ((DB.exec backend db ID params result).ret = 1 ∨
         (DB.exec backend db ID params result).ret = 2 ∨
         (DB.exec backend db ID params result).ret = 3 ∨
         (DB.exec backend db ID params result).ret = 4)) ∨
      ((DB.exec backend db ID params result).ret = 5 ∧
        (DB.exec backend db ID params result).result.isValid = false) ∨
      (DB.exec backend db ID params result).ret = 0 := by
    unfold DB.exec
    by_cases hc : db.dbConn = false
    · simp [hc]
    simp only [if_neg hc]
    cases hf : mapFind db.preparedStatements ID with
    | none => simp
    | some stmt =>
      simp only []
      by_cases hp : stmt.prepared = false
      · simp [hp]
      simp only [if_neg hp]
      by_cases hl : (params.length : Int) ≠ stmt.nParams
      · simp [hl]
      simp only [if_neg hl]
      by_cases hchk : DB.checkResult
          (backend (Request.execPrepared (cstring stmt.name) stmt.nParams (params.map cstring)))
          stmt.type = false
      · simp [hchk, DBResult.isValid]
      · simp [hchk]
  refine ⟨?_, ?_, ?_, ?_⟩
  · intro h5
    rcases key with ⟨_, h | h | h | h⟩ | ⟨_, h⟩ | h
    · omega
    · omega
    · omega
    · omega
    · exact h
    · omega
  · intro h0 h5
    rcases key with h | ⟨h, _⟩ | h
    · exact h
    · exact absurd h h5
    · exact absurd h h0
  · intro hinv h0
    rcases key with ⟨h, _⟩ | ⟨_, h⟩ | h
    · rw [h]; exact hinv
    · exact h
    · exact absurd h h0
  · intro stmt hc hf hp hl
    simp [DB.exec, hc, hf, hp, hl]

/-- Witness of C14 amended: two parameters for a statement of one parameter,
with a fresh holder and with a holder that holds an earlier result. -/
theorem exec_error_holder_witness :
    (DB.exec acceptAll
      (DB.prepareStatement (fun _ => "") acceptAll DB.connected "SELECT $1").db 1
      ["42", "x"] ⟨none⟩).ret = 4 ∧
    (DB.exec acceptAll
      (DB.prepareStatement (fun _ => "") acceptAll DB.connected "SELECT $1").db 1
      ["42", "x"] ⟨none⟩).result.isValid = false ∧
    (DB.exec rejectAll
      (DB.prepareStatement (fun _ => "") acceptAll DB.connected "SELECT $1").db 1
      ["42"] ⟨some { status := ExecStatusType.PGRES_TUPLES_OK, ntuples := 0, nfields := 0,
                     cells := [] }⟩).result.isValid = false :=
  ⟨((exec_error_holder acceptAll
      (DB.prepareStatement (fun _ => "") acceptAll DB.connected "SELECT $1").db 1
      ["42", "x"] ⟨none⟩).2.2.2
      { name := "tmt_", command := "SELECT $1", nParams := 1, type := 0, prepared := true }
      rfl (by decide) rfl (by decide)).1,
    (exec_error_holder acceptAll
      (DB.prepareStatement (fun _ => "") acceptAll DB.connected "SELECT $1").db 1
      ["42", "x"] ⟨none⟩).2.2.1 rfl (by decide),
    (exec_error_holder rejectAll
      (DB.prepareStatement (fun _ => "") acceptAll DB.connected "SELECT $1").db 1
      ["42"] ⟨some { status := ExecStatusType.PGRES_TUPLES_OK, ntuples := 0, nfields := 0,
                     cells := [] }⟩).1 (by decide)⟩

/-- C15: after `cleanup()` from any state `statementCount()` is 0,
`statementExists(id)` is false for every id, the id counter is 0 and the
connection is absent; a second `cleanup()` leaves that state unchanged. -/
theorem cleanup_clears (db : DB) :
    DB.statementCount (DB.cleanup db) = 0 ∧
    (∀ ID : Int, DB.statementExists (DB.cleanup db) ID = false) ∧
    (DB.cleanup db).previousStatementId = 0 ∧
    (DB.cleanup db).dbConn = false ∧
    (DB.cleanup db).preparedStatements = [] ∧
    DB.cleanup (DB.cleanup db) = DB.cleanup db :=
  ⟨rfl, fun _ => rfl, rfl, rfl, rfl, rfl⟩

/-- What `getValue` does guard: an invalid holder, a row at or above
`rowCount()` and a column at or above `columnCount()` give the empty string
with no cell asked, indices inside the result give the cell, and `rowCount()`
and `columnCount()` are -1 on an invalid holder. -/
theorem getValue_guarded (r : DBResult) (row column : Int) :
    (r.isValid = false → r.getValue row column = { value := some "", asked := [] }) ∧
    (row ≥ r.rowCount → r.getValue row column = { value := some "", asked := [] }) ∧
    (column ≥ r.columnCount → r.getValue row column = { value := some "", asked := [] }) ∧
    (r.isValid = false → r.rowCount = -1 ∧ r.columnCount = -1) := by
  obtain ⟨res⟩ := r
  cases res with
  | none => simp [DBResult.getValue, DBResult.isValid, DBResult.rowCount, DBResult.columnCount]
  | some res =>
    refine ⟨by simp [DBResult.isValid], ?_, ?_, by simp [DBResult.isValid]⟩
    · intro h
      simp [DBResult.getValue, h]
    · intro h
      simp [DBResult.getValue, h]

/-- C16 fails on the code: on a valid holder with one row and one column,
`getValue(-1, 0)` and `getValue(0, -1)` pass the test `row >= rowCount() ||
column >= columnCount()`, ask libpq for a cell outside the result and build the
returned string from the null pointer that `PQgetvalue` answers: the empty
string is not returned. -/
theorem getValue_negative_index :
    (DBResult.mk (some oneRow)).rowCount = 1 ∧
    (DBResult.mk (some oneRow)).columnCount = 1 ∧
    (DBResult.mk (some oneRow)).getValue (-1) 0 = { value := none, asked := [(-1, 0)] } ∧
    (DBResult.mk (some oneRow)).getValue 0 (-1) = { value := none, asked := [(0, -1)] } ∧
    (DBResult.mk (some oneRow)).getValue 0 0 = { value := some "42", asked := [(0, 0)] } := by
  decide

/-! ## Lemmas on what the classifier looks at -/

/-- The classifier body looks at the masked values of the first two characters
only. -/
theorem classifyAt_congr (l1 l2 : List Char)
    (h : (l1.map upperMask).take 2 = (l2.map upperMask).take 2) :
    classifyAt l1 = classifyAt l2 := by
  cases l1 with
  | nil =>
    cases l2 with
    | nil => rfl
    | cons c2 t2 => simp at h
  | cons c1 t1 =>
    cases l2 with
    | nil => simp at h
    | cons c2 t2 =>
      cases t1 with
      | nil =>
        cases t2 with
        | nil =>
          simp only [List.map_cons, List.map_nil, List.take, List.cons.injEq, and_true] at h
          simp only [classifyAt, h]
        | cons d2 u2 => simp at h
      | cons d1 u1 =>
        cases t2 with
        | nil => simp at h
        | cons d2 u2 =>
          simp only [List.map_cons, List.take, List.cons.injEq, and_true] at h
          simp only [classifyAt, h.1, h.2]

theorem dropWhile_isspace_append (ws l : List Char) (h : ∀ c ∈ ws, isspace c = true) :
    (ws ++ l).dropWhile isspace = l.dropWhile isspace := by
  induction ws with
  | nil => rfl
  | cons w ws ih =>
    have hw : isspace w = true := h w (List.mem_cons_self _ _)
    simp only [List.cons_append, List.dropWhile_cons, hw, if_true]
    exact ih (fun c hc => h c (List.mem_cons_of_mem _ hc))

theorem ofNat_toNat_small : ∀ n < 128, (Char.ofNat n).toNat = n := by decide

theorem mask_swap_small : ∀ n < 128,
    (65 ≤ n ∧ n ≤ 90 → (n + 32) &&& 0xFFFFFFDF = n &&& 0xFFFFFFDF) ∧
    (97 ≤ n ∧ n ≤ 122 → (n - 32) &&& 0xFFFFFFDF = n &&& 0xFFFFFFDF) := by decide

theorem swapCase_toNat (c : Char) :
    (65 ≤ c.toNat ∧ c.toNat ≤ 90 ∧ (swapCase c).toNat = c.toNat + 32) ∨
    (97 ≤ c.toNat ∧ c.toNat ≤ 122 ∧ (swapCase c).toNat = c.toNat - 32) ∨
    swapCase c = c := by
  unfold swapCase
  by_cases h1 : 65 ≤ c.toNat ∧ c.toNat ≤ 90
  · rw [if_pos h1]
    exact Or.inl ⟨h1.1, h1.2, ofNat_toNat_small _ (by omega)⟩
  · rw [if_neg h1]
    by_cases h2 : 97 ≤ c.toNat ∧ c.toNat ≤ 122
    · rw [if_pos h2]
      exact Or.inr (Or.inl ⟨h2.1, h2.2, ofNat_toNat_small _ (by omega)⟩)
    · rw [if_neg h2]
      exact Or.inr (Or.inr rfl)

theorem upperMask_swapCase (c : Char) : upperMask (swapCase c) = upperMask c := by
  unfold upperMask
  rcases swapCase_toNat c with ⟨h1, h2, h3⟩ | ⟨h1, h2, h3⟩ | h
  · rw [h3]
    exact (mask_swap_small c.toNat (by omega)).1 ⟨h1, h2⟩
  · rw [h3]
    exact (mask_swap_small c.toNat (by omega)).2 ⟨h1, h2⟩
  · rw [h]

theorem isspace_swapCase (c : Char) : isspace (swapCase c) = isspace c := by
  unfold isspace
  rcases swapCase_toNat c with ⟨h1, h2, h3⟩ | ⟨h1, h2, h3⟩ | h
  · rw [h3]
    have a1 : ¬ c.toNat + 32 = 32 := by omega
    have a2 : ¬ c.toNat + 32 ≤ 13 := by omega
    have a3 : ¬ c.toNat = 32 := by omega
    have a4 : ¬ c.toNat ≤ 13 := by omega
    simp [a1, a2, a3, a4]
  · rw [h3]
    have a1 : ¬ c.toNat - 32 = 32 := by omega
    have a2 : ¬ c.toNat - 32 ≤ 13 := by omega
    have a3 : ¬ c.toNat = 32 := by omega
    have a4 : ¬ c.toNat ≤ 13 := by omega
    simp [a1, a2, a3, a4]
  · rw [h]

theorem map_upperMask_changeCase (flags : List Bool) (l : List Char) :
    (changeCase flags l).map upperMask = l.map upperMask := by
  induction l generalizing flags with
  | nil => cases flags <;> rfl
  | cons c cs ih =>
    cases flags with
    | nil => rfl
    | cons b bs =>
      simp only [changeCase, List.map_cons, ih]
      cases b
      · simp
      · simp [upperMask_swapCase]

theorem classifyAt_changeCase (flags : List Bool) (l : List Char) :
    classifyAt ((changeCase flags l).dropWhile isspace) = classifyAt (l.dropWhile isspace) := by
  induction l generalizing flags with
  | nil => cases flags <;> rfl
  | cons c cs ih =>
    cases flags with
    | nil => rfl
    | cons b bs =>
      have hsp : isspace (if b = true then swapCase c else c) = isspace c := by
        cases b
        · simp
        · simp [isspace_swapCase]
      simp only [changeCase, List.dropWhile_cons, hsp]
      by_cases hc : isspace c = true
      · simp only [hc, if_true]
        exact ih bs
      · simp only [hc]
        apply classifyAt_congr
        have := map_upperMask_changeCase (b :: bs) (c :: cs)
        simp only [changeCase] at this
        simp only [Bool.false_eq_true, if_false]
        rw [this]

theorem classifyAt_take (l l' : List Char)
    (h : l'.take ((l.takeWhile isspace).length + 2) = l.take ((l.takeWhile isspace).length + 2)) :
    classifyAt (l'.dropWhile isspace) = classifyAt (l.dropWhile isspace) := by
  induction l generalizing l' with
  | nil =>
    have : l' = [] := by
      cases l' with
      | nil => rfl
      | cons a t => simp at h
    rw [this]
  | cons c cs ih =>
    by_cases hc : isspace c = true
    · simp only [List.takeWhile_cons, hc, if_true, List.length_cons] at h
      cases l' with
      | nil => simp at h
      | cons a t =>
        simp only [List.take_succ_cons, List.cons.injEq] at h
        obtain ⟨ha, ht⟩ := h
        subst ha
        simp only [List.dropWhile_cons, hc, if_true]
        exact ih t ht
    · simp only [List.takeWhile_cons, hc, Bool.false_eq_true, if_false, List.length_nil,
        Nat.zero_add] at h
      cases l' with
      | nil => simp at h
      | cons a t =>
        have ha : a = c := by
          have := congrArg List.head? h
          simpa using this
        subst ha
        simp only [List.dropWhile_cons, hc]
        apply classifyAt_congr
        simp only [Bool.false_eq_true, if_false]
        rw [← List.map_take, ← List.map_take, h]

/-- The outer loop never returns less than the maximum it starts from. -/
theorem countLoop_ge (fuel : Nat) (ptr : List Char) (m : Int) :
    m ≤ countLoop fuel ptr m := by
  induction fuel generalizing ptr m with
  | zero => simp [countLoop]
  | succ fuel ih =>
    cases ptr with
    | nil => simp [countLoop]
    | cons c rest =>
      simp only [countLoop]
      split
      · refine le_trans ?_ (ih _ _)
        split <;> omega
      · exact ih _ _

/-- The classifier returns -1 or one of the eight kinds. -/
theorem classifyAt_kind (l : List Char) :
    classifyAt l = -1 ∨ classifyAt l = SQL_SELECT ∨ classifyAt l = SQL_INSERT ∨
    classifyAt l = SQL_CREATE ∨ classifyAt l = SQL_UPDATE ∨ classifyAt l = SQL_ALTER ∨
    classifyAt l = SQL_DROP ∨ classifyAt l = SQL_DELETE ∨ classifyAt l = SQL_TRUNCATE := by
  cases l with
  | nil => exact Or.inl rfl
  | cons c t =>
    cases t with
    | nil => simp only [classifyAt]; split_ifs <;> simp
    | cons d u => simp only [classifyAt]; split_ifs <;> simp

/-- C17: the classification is space- and case-insensitive and looks at no more
than two characters.  For every text `T`: a run of whitespace put before `T`,
a change of letter case at any places of `T`, and any change of `T` behind the
first non-space character and the character right after it (the two texts
agree up to there) leave the result of `getSQLCommandType` as it is. -/
theorem classification_insensitive :
    (∀ (ws : List Char) (T : String), (∀ c ∈ ws, isspace c = true) →
      getSQLCommandType (String.mk (ws ++ T.toList)) = getSQLCommandType T) ∧
    (∀ (flags : List Bool) (T : String),
      getSQLCommandType (String.mk (changeCase flags T.toList)) = getSQLCommandType T) ∧
    (∀ (T T1 : String),
      T1.toList.take ((T.toList.takeWhile isspace).length + 2)
        = T.toList.take ((T.toList.takeWhile isspace).length + 2) →
      getSQLCommandType T1 = getSQLCommandType T) := by
  refine ⟨?_, ?_, ?_⟩
  · intro ws T h
    unfold getSQLCommandType
    show classifyAt ((ws ++ T.toList).dropWhile isspace) = _
    rw [dropWhile_isspace_append ws _ h]
  · intro flags T
    unfold getSQLCommandType
    exact classifyAt_changeCase flags T.toList
  · intro T T1 h
    unfold getSQLCommandType
    exact classifyAt_take T.toList T1.toList h

/-- Witness of C17: whitespace before `insert into t`, the case of `delete`
changed at two places, and the text behind `DR` replaced. -/
theorem classification_insensitive_witness :
    getSQLCommandType (String.mk ([' ', '\t', '\n'] ++ "insert into t".toList))
      = getSQLCommandType "insert into t" ∧
    String.mk (changeCase [true, false, true] "delete from t".toList) = "DeLete from t" ∧
    getSQLCommandType (String.mk (changeCase [true, false, true] "delete from t".toList))
      = getSQLCommandType "delete from t" ∧
    getSQLCommandType " DRaw a line" = getSQLCommandType " DROP TABLE t" :=
  ⟨classification_insensitive.1 [' ', '\t', '\n'] "insert into t" (by decide),
    by decide,
    classification_insensitive.2.1 [true, false, true] "delete from t",
    classification_insensitive.2.2 " DROP TABLE t" " DRaw a line" (by decide)⟩

/-- C18: `countParameters` returns a value that is not negative for every
command text, also when a digit run behind `$` is so long that the 32-bit
accumulation wraps around: a run that wraps to a negative value is not taken
as the maximum, and a run that wraps to a positive value counts with the
wrapped value. -/
theorem countParameters_nonneg :
    (∀ command : String, 0 ≤ countParameters command) ∧
    countParameters "SELECT $2147483648" = 0 ∧
    countParameters "SELECT $1, $2147483649" = 1 ∧
    countParameters "SELECT $4294967298" = 2 :=
  ⟨fun command => countLoop_ge _ _ 0, by decide, by decide, by decide⟩

/-- C19: in every state of a run the cached ids are pairwise different and lie
between 1 and `previousStatementId`; a call of `prepareStatement` either leaves
the cache as it is, or stores the statement under the id it returns, which is
greater than every id in the cache and was not in the cache, so that no entry
is overwritten and `statementCount()` grows by exactly one. -/
theorem ids_fresh (stray : Int → String) (backend : Backend) (db : DB) (ids : List Int)
    (T : String) (hrun : Run stray db ids) :
    (db.preparedStatements.map Prod.fst).Nodup ∧
    (∀ e ∈ db.preparedStatements, 1 ≤ e.1 ∧ e.1 ≤ db.previousStatementId) ∧
    ((DB.prepareStatement stray backend db T).db.preparedStatements = db.preparedStatements ∨
      ((∀ e ∈ db.preparedStatements, e.1 < (DB.prepareStatement stray backend db T).ret) ∧
        DB.statementExists db (DB.prepareStatement stray backend db T).ret = false ∧
        (∃ st, (DB.prepareStatement stray backend db T).db.preparedStatements
          = db.preparedStatements ++ [((DB.prepareStatement stray backend db T).ret, st)]) ∧
        DB.statementCount (DB.prepareStatement stray backend db T).db
          = DB.statementCount db + 1)) := by
  have hnd := (run_invariant stray db ids hrun).1.2.2
  have hids := (run_cache stray db ids hrun).2.1
  refine ⟨hnd, hids, ?_⟩
  obtain ⟨_, hcase⟩ := prepareStatement_db stray backend db T
  rcases hcase with ⟨hm, _, _, _⟩ | ⟨hret, _, hm, _⟩
  · exact Or.inl hm
  · right
    have hfresh : db.previousStatementId + 1 ∉ db.preparedStatements.map Prod.fst := by
      intro hin
      obtain ⟨e, he, hk⟩ := List.mem_map.1 hin
      have := (hids e he).2
      omega
    refine ⟨?_, ?_, ?_, ?_⟩
    · intro e he
      rw [hret]
      have := (hids e he).2
      omega
    · rw [hret]
      simp [DB.statementExists, mapFind_eq_none _ _ hfresh]
    · rw [hm, hret, mapAssign_fresh _ _ _ hfresh]
      exact ⟨_, rfl⟩
    · rw [DB.statementCount, DB.statementCount, hm, mapAssign_fresh _ _ _ hfresh]
      simp

/-- Witness of C19: `DROP TABLE t` prepared in a run that has prepared
`SELECT 1`. -/
theorem ids_fresh_witness :
    ((DB.prepareStatement (fun _ => "") acceptAll (DB.init (some true) DB.initial).2
        "SELECT 1").db.preparedStatements.map Prod.fst).Nodup ∧
    DB.statementCount (DB.prepareStatement (fun _ => "") acceptAll
        (DB.prepareStatement (fun _ => "") acceptAll (DB.init (some true) DB.initial).2
          "SELECT 1").db "DROP TABLE t").db = 2 :=
  have h := ids_fresh (fun _ => "") acceptAll
    (DB.prepareStatement (fun _ => "") acceptAll (DB.init (some true) DB.initial).2
      "SELECT 1").db [1] "DROP TABLE t"
    (Run.prepare acceptAll "SELECT 1" (Run.init (some true) Run.start))
  ⟨h.1, by
    rcases h.2.2 with h1 | ⟨_, _, _, h4⟩
    · exact absurd h1 (by decide)
    · rw [h4]; decide⟩

/-- C20: in every state of a run every cached statement is marked prepared, has
one of the eight kinds, and has the parameter count `countParameters` gives for
its command; so `exec` does not return 3 in any state of a run. -/
theorem stored_statements_prepared (stray : Int → String) (db : DB) (ids : List Int)
    (hrun : Run stray db ids) :
    (∀ (ID : Int) (st : Statement), mapFind db.preparedStatements ID = some st →
      st.prepared = true ∧
      (st.type = SQL_SELECT ∨ st.type = SQL_INSERT ∨ st.type = SQL_CREATE ∨
        st.type = SQL_UPDATE ∨ st.type = SQL_ALTER ∨ st.type = SQL_DROP ∨
        st.type = SQL_DELETE ∨ st.type = SQL_TRUNCATE) ∧
      st.nParams = countParameters st.command) ∧
    (∀ (backend : Backend) (ID : Int) (params : List String) (result : DBResult),
      (DB.exec backend db ID params result).ret ≠ 3) := by
  have hst := (run_cache stray db ids hrun).2.2
  constructor
  · intro ID st hf
    obtain ⟨hp, hty, hne, hn⟩ := hst _ (mem_of_mapFind _ _ _ hf)
    refine ⟨hp, ?_, hn⟩
    have hk := classifyAt_kind (st.command.toList.dropWhile isspace)
    have hty1 : st.type = classifyAt (st.command.toList.dropWhile isspace) := hty
    rw [← hty1] at hk
    rcases hk with h | h
    · exact absurd h hne
    · exact h
  · intro backend ID params result
    unfold DB.exec
    by_cases hc : db.dbConn = false
    · simp [hc]
    simp only [if_neg hc]
    cases hf : mapFind db.preparedStatements ID with
    | none => simp
    | some stmt =>
      have hp : stmt.prepared = true := (hst _ (mem_of_mapFind _ _ _ hf)).1
      simp only [hp, Bool.true_eq_false, if_false]
      by_cases hl : (params.length : Int) ≠ stmt.nParams
      · simp [hl]
      · simp only [if_neg hl]
        split <;> simp

/-- Witness of C20: the state after `SELECT $1` was prepared in a run. -/
theorem stored_statements_prepared_witness :
    (DB.exec acceptAll
      (DB.prepareStatement (fun _ => "") acceptAll (DB.init (some true) DB.initial).2
        "SELECT $1").db 1 [] ⟨none⟩).ret ≠ 3 :=
  (stored_statements_prepared (fun _ => "") _ [1]
    (Run.prepare acceptAll "SELECT $1" (Run.init (some true) Run.start))).2
    acceptAll 1 [] ⟨none⟩

end PqSQL
